import Mathlib

/-!
# SpectralSignalHound-Viewer: the sweep inspector

A shallow embedding of `sources/SweepInspector.cpp`: the frequency-axis label
formatter `FreqScaleDraw::label` and the view controller `SweepInspector`
(`setpData`, `sliderMoved`, `loadSweep`), followed by the properties proved
about them.

Conventions of the embedding.
* A C++ `double` is the rational number `ℚ` that is its value; infinities and
  NaN are outside the model. Where the C++ would produce one of the latter
  (the logarithm of a non-positive number), the embedded function returns
  `none`.
* In `FreqScaleDraw::label`, where the rounding of the arithmetic decides the
  result, the quotients are rounded to the nearest double (`Ieee.roundDouble`)
  and `std::log10`, whose rounding the C library does not fix, is a parameter.
  In `loadSweep` the sum, the quotients and the differences are exact.
* A C++ `int` is an unbounded `ℤ`; the only arithmetic on an `int` is
  `getNumSweeps() - 1`.
* Objects created with `new` are identified by the number of their allocation.
* Calls into the Qt and Qwt libraries are modelled in the namespaces `Qt` and
  `Qwt`, from the documented behaviour of those libraries.
-/

/-- Rounding of a rational to the nearest integer, a tie going to the even
neighbour. -/
def roundHalfEven (q : ℚ) : ℤ :=
  if q - ⌊q⌋ < 1 / 2 then ⌊q⌋
  else if 1 / 2 < q - ⌊q⌋ then ⌊q⌋ + 1
  else if ⌊q⌋ % 2 = 0 then ⌊q⌋ else ⌊q⌋ + 1

namespace Ieee

/-- The result of an IEEE 754 operation on doubles whose exact result is `q`:
the double nearest to `q`, a tie going to the even significand. A double has
a significand of 53 bits, so the doubles around `q` are the multiples of
`2 ^ (e - 52)` where `2 ^ e ≤ |q| < 2 ^ (e + 1)`. Overflow and subnormal
numbers are outside the model. -/
def roundDouble (q : ℚ) : ℚ :=
  if q = 0 then 0
  else (roundHalfEven (q / 2 ^ (Int.log 2 |q| - 52)) : ℚ) * 2 ^ (Int.log 2 |q| - 52)

/-- The rational `q` is the value of a double. -/
def IsDouble (q : ℚ) : Prop := roundDouble q = q

/-- The conversion `(int) r` of a double to `int`: the fractional part is
discarded, which rounds towards zero (not towards minus infinity). -/
def toInt (r : ℚ) : ℤ := if 0 ≤ r then ⌊r⌋ else ⌈r⌉

end Ieee

namespace Qt

/-- The character of the last decimal digit of `d`. -/
def digitChar (d : ℕ) : Char := Char.ofNat (48 + d % 10)

/-- The text of `n` hundredths in fixed notation with two decimals, with a
minus sign when `neg` is set and the number is not zero. -/
def fixed2 (neg : Bool) (n : ℕ) : String :=
  (if neg ∧ n ≠ 0 then "-" else "") ++ toString (n / 100) ++ "." ++
    String.mk [digitChar (n / 10), digitChar n]

/-- The text that `QString::arg(double a, 0, 'f', 2)` substitutes for the place
marker: the value of the double `a` in fixed notation, rounded to two digits
after the decimal point. A value exactly halfway between two hundredths goes
to the even one in the versions of Qt that convert with `dtoa`, and away from
zero in those that convert with the double-conversion library: `tieUp` says
which. -/
def argF2 (tieUp : Bool) (q : ℚ) : String :=
  fixed2 (decide (q < 0))
    (if tieUp then ⌊|q| * 100 + 1 / 2⌋ else roundHalfEven (|q| * 100)).toNat

end Qt

/-- The `switch` of `FreqScaleDraw::label` on the exponent `e`: the value given
to `rtn`, which stays the empty `QString` when no `case` matches. The quotients
`v/1e9`, `v/1e6` and `v/1e3` are quotients of doubles. -/
def FreqScaleDraw.rtn (tieUp : Bool) (e : ℤ) (v : ℚ) : String :=
  match e with
  | 9 => Qt.argF2 tieUp (Ieee.roundDouble (v / 1000000000)) ++ " GHz"
  | 8 | 7 | 6 => Qt.argF2 tieUp (Ieee.roundDouble (v / 1000000)) ++ " MHz"
  | 5 | 4 | 3 => Qt.argF2 tieUp (Ieee.roundDouble (v / 1000)) ++ " kHz"
  | 2 | 1 | 0 => Qt.argF2 tieUp v ++ " Hz"
  | _ => ""

/-- The method `FreqScaleDraw::label(double v)`: the text of the axis label for
the frequency `v`, `switch ((int) std::log10(v))`. The function `std::log10`
of the C library is the parameter `log10`, from doubles to doubles, and the
rule of Qt for halfway values is the parameter `tieUp`. For `v ≤ 0` the
logarithm is minus infinity or NaN and the conversion to `int` is undefined:
`none`. -/
def FreqScaleDraw.label (log10 : ℚ → ℚ) (tieUp : Bool) (v : ℚ) : Option String :=
  if v ≤ 0 then none else some (FreqScaleDraw.rtn tieUp (Ieee.toInt (log10 v)) v)

/-- The computed logarithm of `v` is below `k` exactly when the exact
logarithm is, that is, when `v < 10 ^ k`. -/
def Agrees (log10 : ℚ → ℚ) (v : ℚ) (k : ℕ) : Prop :=
  log10 v < (k : ℚ) ↔ v < 10 ^ k

/-! ## The data collaborator and the Qt / Qwt objects the inspector drives -/

/-- The type `fsweep`: a `QVector<QPointF>` of samples, each a frequency `x`
(first component) and a power `y` (second component). -/
abbrev fsweep := List (ℚ × ℚ)

/-- The type `range`: a pair of doubles, `first` and `second`. -/
abbrev range := ℚ × ℚ

/-- The part of `QHoundData` that `SweepInspector` calls. The class itself is
declared outside these sources, so its four answers are parameters:
`getNumSweeps()`, `timestampFromIndex(index)`, `getSweep(index)` and
`limits(FREQ)`. -/
structure QHoundData where
  getNumSweeps : ℤ
  timestampFromIndex : ℤ → String
  getSweep : ℤ → fsweep
  limitsFreq : range

namespace Qt

/-- The range and value of a `QAbstractSlider` that is not being dragged (its
`sliderPosition` equals its `value`). -/
structure Slider where
  minimum : ℤ
  maximum : ℤ
  value : ℤ
  deriving DecidableEq, Repr

/-- The clamping of a value into the range of the slider, `qMax(minimum,
qMin(maximum, value))`. -/
def Slider.bound (w : Slider) (value : ℤ) : ℤ :=
  max w.minimum (min w.maximum value)

/-- The method `QAbstractSlider::setValue(int)`: the value is clamped into the range; when
it equals the current value nothing happens, otherwise it is stored and the
signal `valueChanged(value)` is emitted. The second component is the emitted
signal, if any. -/
def Slider.setValue (w : Slider) (value : ℤ) : Slider × Option ℤ :=
  let value := w.bound value
  if w.value = value then (w, none) else ({ w with value := value }, some value)

/-- The method `QAbstractSlider::setRange(int min, int max)`: stores `min` and
`qMax(min, max)`; when the range changed, the current value is set again so
that it is brought into the new range. -/
def Slider.setRange (w : Slider) (min max : ℤ) : Slider × Option ℤ :=
  let w1 : Slider := { w with minimum := min, maximum := Max.max min max }
  if w.minimum ≠ w1.minimum ∨ w.maximum ≠ w1.maximum then w1.setValue w1.value
  else (w1, none)

/-- The method `QAbstractSlider::setMaximum(int max)`, which is
`setRange(qMin(minimum, max), max)`. -/
def Slider.setMaximum (w : Slider) (max : ℤ) : Slider × Option ℤ :=
  w.setRange (min w.minimum max) max

end Qt

/-- The statistics of a sweep that `loadSweep` computes. -/
structure SweepStats where
  max : ℚ
  min : ℚ
  avg : ℚ
  deriving DecidableEq, Repr

namespace Qwt

/-- What a plot item is: the grid, a curve with its title and samples, or a
marker. The label of the marker, the text
`"Max: %1 dBm\tMin: %2 dBm\tAvg: %3 dBm"` with the three statistics
substituted, is kept as the three numbers; `x` and `y` are the position given
by `setValue`. -/
inductive ItemKind where
  | grid
  | curve (title : String) (samples : fsweep)
  | marker (label : SweepStats) (x y : ℚ)
  deriving DecidableEq, Repr

/-- A `QwtPlotItem` object: `id` is the number of the allocation that created
it. -/
structure PlotItem where
  id : ℕ
  kind : ItemKind
  deriving DecidableEq, Repr

/-- The arguments of `QwtPlot::setAxisScale(axis, min, max, step)`. -/
structure AxisScale where
  min : ℚ
  max : ℚ
  step : ℚ
  deriving DecidableEq, Repr

/-- The state of the `QwtPlot` widget that the inspector changes: title, the
items attached, and the scales of the two enabled axes (`none` while the axis
is still autoscaled). -/
structure Plot where
  title : String
  items : List PlotItem
  xBottom : Option AxisScale
  yLeft : Option AxisScale
  deriving DecidableEq, Repr

/-- The call `item->attach(plot)`: the item joins the items of the plot. -/
def Plot.attach (p : Plot) (item : PlotItem) : Plot :=
  { p with items := p.items ++ [item] }

/-- The call `item->attach(NULL)` for the object `id`: that object leaves the plot. -/
def Plot.detach (p : Plot) (id : ℕ) : Plot :=
  { p with items := p.items.filter fun it => it.id ≠ id }

/-- The call `plot->detachItems()` with its default arguments `Rtti_PlotItem` and
`autoDelete = true`: every attached item, of whatever kind, is detached (and
deleted). -/
def Plot.detachItems (p : Plot) : Plot :=
  { p with items := [] }

/-- Whether the item is a curve. -/
def PlotItem.isCurve (it : PlotItem) : Bool :=
  match it.kind with
  | .curve _ _ => true
  | _ => false

/-- Whether the item is a marker. -/
def PlotItem.isMarker (it : PlotItem) : Bool :=
  match it.kind with
  | .marker _ _ _ => true
  | _ => false

/-- The number of curves attached to the plot. -/
def Plot.curveCount (p : Plot) : ℕ := p.items.countP PlotItem.isCurve

/-- The number of markers attached to the plot. -/
def Plot.markerCount (p : Plot) : ℕ := p.items.countP PlotItem.isMarker

end Qwt

/-! ## SweepInspector -/

/-- The function `std::max(a, b)`: `b` when `a < b`, otherwise `a`. -/
def stdMax (a b : ℚ) : ℚ := if a < b then b else a

/-- The function `std::min(a, b)`: `b` when `b < a`, otherwise `a`. -/
def stdMin (a b : ℚ) : ℚ := if b < a then b else a

/-- One pass of the body of the `for` loop of `loadSweep` over the sample with
power `y`; the state is `(max, min, avg)`. -/
def statsStep (acc : ℚ × ℚ × ℚ) (y : ℚ) : ℚ × ℚ × ℚ :=
  (stdMax acc.1 y, stdMin acc.2.1 y, acc.2.2 + y)

/-- The statistics scan of `loadSweep`:
`max = min = sweep.first().y(), avg = 0`, the loop over all samples, and
`avg /= sweep.size()`. On an empty sweep `sweep.first()` is undefined: `none`. -/
def sweepStats (sweep : fsweep) : Option SweepStats :=
  match sweep with
  | [] => none
  | p :: _ =>
    let acc := (sweep.map Prod.snd).foldl statsStep (p.2, p.2, 0)
    some { max := acc.1, min := acc.2.1, avg := acc.2.2 / (sweep.length : ℚ) }

/-- The widgets that `setupUi` creates and the inspector uses afterwards: the
text of the `timestamp` label and the slider `timeIndex`. The form they come
from is not part of these sources, so they are parameters. -/
structure Ui where
  timestamp : String
  timeIndex : Qt.Slider
  deriving DecidableEq, Repr

/-- The state of a `SweepInspector`. `data`, `d_curve`, `minfo` and `grid` are
the pointer members (`none` for `NULL`, or for `minfo` before its first
assignment; otherwise the object identifier); `zoomBase` is the rectangle
given to the zoomer, as its two corner points; `nextId` is the number of
objects allocated so far. -/
structure SweepInspector where
  data : Option QHoundData
  d_curve : Option ℕ
  minfo : Option ℕ
  grid : ℕ
  timestamp : String
  timeIndex : Qt.Slider
  plot : Qwt.Plot
  zoomBase : Option ((ℚ × ℚ) × (ℚ × ℚ))
  nextId : ℕ

namespace SweepInspector

/-- The constructor `SweepInspector::SweepInspector`: `data` and `d_curve` are
`NULL`, the plot has the title `"RF Sweep"`, and the grid (object `0`) is
created and attached. -/
def new (ui : Ui) : SweepInspector :=
  { data := none
    d_curve := none
    minfo := none
    grid := 0
    timestamp := ui.timestamp
    timeIndex := ui.timeIndex
    plot := Qwt.Plot.attach { title := "RF Sweep", items := [], xBottom := none, yLeft := none }
      { id := 0, kind := .grid }
    zoomBase := none
    nextId := 1 }

/-- The slot `SweepInspector::sliderMoved(int index)`: the timestamp label shows
the timestamp of the sweep `index`, or nothing when no data source is bound. -/
def sliderMoved (s : SweepInspector) (index : ℤ) : SweepInspector :=
  match s.data with
  | none => { s with timestamp := "" }
  | some data => { s with timestamp := data.timestampFromIndex index }

/-- The slot `SweepInspector::loadSweep(int index)`. The result is `none` when the
statistics scan meets an empty sweep. -/
def loadSweep (s : SweepInspector) (index : ℤ) : Option SweepInspector :=
  match s.data with
  | none => some s
  | some data =>
    let s := s.sliderMoved index
    -- remove old data and get new
    let plot := match s.d_curve with
      | some c => s.plot.detach c
      | none => s.plot
    let plot := plot.detachItems
    let sweep := data.getSweep index
    let d_curve := s.nextId
    let plot := plot.attach { id := d_curve, kind := .curve s.timestamp sweep }
    let freqs := data.limitsFreq
    let plot := { plot with xBottom := some ⟨freqs.1, freqs.2, (freqs.2 - freqs.1) / 5⟩ }
    let plot := { plot with yLeft := some ⟨-135, 20, 10⟩ }
    let plot := { plot with title := "RF Sweep @ " ++ s.timestamp }
    let zoomBase := ((freqs.1, (20 : ℚ)), (freqs.2, (-135 : ℚ)))
    -- find max, min, and average values
    match sweepStats sweep with
    | none => none
    | some st =>
      let minfo := s.nextId + 1
      let plot := plot.attach
        { id := minfo, kind := .marker st (freqs.1 + (freqs.2 - freqs.1) / 2) (-135) }
      some { s with
        d_curve := some d_curve
        minfo := some minfo
        plot := plot
        zoomBase := some zoomBase
        nextId := s.nextId + 2 }

/-- The connection `connect(timeIndex, SIGNAL(valueChanged(int)), this,
SLOT(loadSweep(int)))` made by the constructor: an emitted `valueChanged(i)`
runs `loadSweep(i)` before the emitting call returns. -/
def valueChanged (s : SweepInspector) (signal : Option ℤ) : Option SweepInspector :=
  match signal with
  | none => some s
  | some i => s.loadSweep i

/-- The method `SweepInspector::setpData(QHoundData *newd)`. The two calls on
the slider each run `loadSweep` when they emit `valueChanged`. -/
def setpData (s : SweepInspector) (newd : QHoundData) : Option SweepInspector :=
  let s := { s with data := some newd }
  -- timeIndex->setMaximum(data->getNumSweeps()-1)
  let r := s.timeIndex.setMaximum (newd.getNumSweeps - 1)
  match valueChanged { s with timeIndex := r.1 } r.2 with
  | none => none
  | some s =>
    -- timeIndex->setValue(0)
    let r := s.timeIndex.setValue 0
    valueChanged { s with timeIndex := r.1 } r.2

/-- The state in which `loadSweep(index)` leaves an inspector bound to `data`
when the statistics scan of the sweep gives `st`, written out field by
field. -/
def loaded (s : SweepInspector) (data : QHoundData) (index : ℤ) (st : SweepStats) :
    SweepInspector :=
  { data := some data
    d_curve := some s.nextId
    minfo := some (s.nextId + 1)
    grid := s.grid
    timestamp := data.timestampFromIndex index
    timeIndex := s.timeIndex
    plot :=
      { title := "RF Sweep @ " ++ data.timestampFromIndex index
        items :=
          [{ id := s.nextId,
             kind := .curve (data.timestampFromIndex index) (data.getSweep index) },
           { id := s.nextId + 1,
             kind := .marker st
               (data.limitsFreq.1 + (data.limitsFreq.2 - data.limitsFreq.1) / 2) (-135) }]
        xBottom := some ⟨data.limitsFreq.1, data.limitsFreq.2,
          (data.limitsFreq.2 - data.limitsFreq.1) / 5⟩
        yLeft := some ⟨-135, 20, 10⟩ }
    zoomBase := some ((data.limitsFreq.1, 20), (data.limitsFreq.2, -135))
    nextId := s.nextId + 2 }

/-- The states an inspector can be in: those of a freshly constructed one, and
those that a call of `setpData`, `sliderMoved` or `loadSweep` that returns
leads to from such a state. -/
inductive Reachable : SweepInspector → Prop where
  | init (ui : Ui) : Reachable (SweepInspector.new ui)
  | bind {s s1 : SweepInspector} (d : QHoundData) :
      Reachable s → s.setpData d = some s1 → Reachable s1
  | preview {s : SweepInspector} (i : ℤ) : Reachable s → Reachable (s.sliderMoved i)
  | commit {s s1 : SweepInspector} (i : ℤ) :
      Reachable s → s.loadSweep i = some s1 → Reachable s1

/-- At most one curve and at most one marker are attached to the plot. -/
def AtMostOne (s : SweepInspector) : Prop :=
  s.plot.curveCount ≤ 1 ∧ s.plot.markerCount ≤ 1

end SweepInspector

/-! ## Example data -/

/-- The sweep of the example: three samples with the powers -50, -10 and
-90. -/
def exampleSweep : fsweep := [(100, -50), (200, -10), (300, -90)]

/-- A sweep whose samples all have the power -70. -/
def flatSweep : fsweep := [(100, -70), (200, -70)]

/-- The widgets of a form whose slider has the range and value of a newly
created `QSlider`: 0 to 99, at 0. -/
def exampleUi : Ui := { timestamp := "", timeIndex := ⟨0, 99, 0⟩ }

/-- A data source with three sweeps, each the example sweep, over the
frequencies 100 to 300. -/
def exampleData : QHoundData :=
  { getNumSweeps := 3
    timestampFromIndex := fun _ => "12:00:00"
    getSweep := fun _ => exampleSweep
    limitsFreq := (100, 300) }

/-- A data source without sweeps, which answers every request for a sweep with
the flat sweep. -/
def emptyData : QHoundData :=
  { getNumSweeps := 0
    timestampFromIndex := fun _ => ""
    getSweep := fun _ => flatSweep
    limitsFreq := (100, 300) }

/-- A new inspector bound to the example data: the state after
`setpData(exampleData)` on `SweepInspector.new exampleUi`. -/
def exampleBound : SweepInspector :=
  { SweepInspector.new exampleUi with
    data := some exampleData, timeIndex := ⟨0, 2, 0⟩ }

/-- A new inspector, not bound, whose slider was moved to index 1. -/
def exampleMoved : SweepInspector :=
  { SweepInspector.new exampleUi with timeIndex := ⟨0, 99, 1⟩ }

/-- The statistics of the example sweep. -/
def exampleStats : SweepStats := { max := -10, min := -90, avg := -50 }

/-- The inspector bound to the example data after the slider was moved to
index 1 and the sweep 1 was loaded by the `valueChanged(1)` this emitted. -/
def exampleShown : SweepInspector :=
  SweepInspector.loaded { exampleBound with timeIndex := ⟨0, 2, 1⟩ } exampleData 1 exampleStats

/-- A second data source with three sweeps, each the flat sweep, over the
frequencies 50 to 60. -/
def otherData : QHoundData :=
  { getNumSweeps := 3
    timestampFromIndex := fun _ => "13:00:00"
    getSweep := fun _ => flatSweep
    limitsFreq := (50, 60) }

/-- The largest double below 1000, `999.9999999999999`. -/
def belowThousand : ℚ := 1000 - 1 / 2 ^ 43

/-- The largest double below `10^10`, `9999999999.999998`. -/
def belowTenGiga : ℚ := 10 ^ 10 - 1 / 2 ^ 19

/-- The double nearest to one tenth, the value of the literal `0.1`; it lies a
little above `1/10`. -/
def doubleTenth : ℚ := 3602879701896397 / 2 ^ 55

/-- The results of `std::log10` in IEEE double arithmetic, as the GNU C library
computes them, at the inputs used in the examples below; elsewhere 0, a value
that is not used. -/
def exampleLog10 (v : ℚ) : ℚ :=
  if v = 1320 then 7026907796880375 / 2 ^ 51
  else if v = 15012402 then 1009995574396611 / 2 ^ 47
  else if v = 45 then 7445407261002879 / 2 ^ 52
  else if v = 1015 then 6769959673787845 / 2 ^ 51
  else if v = belowThousand then 3
  else if v = belowTenGiga then 10
  else if v = 10 ^ 10 then 10
  else if v = 1 / 2 then -5422874305198591 / 2 ^ 54
  else if v = 3 / 4 then -4501392381066241 / 2 ^ 55
  else if v = doubleTenth then -1
  else if v = 1 / 16 then -5422874305198591 / 2 ^ 52
  else 0

/-! ## The axis label formatter -/

theorem int_le_of_cast_lt_add_one {a b : ℤ} (h : (a : ℚ) < b + 1) : a ≤ b := by
  have h2 : (a : ℚ) < ((b + 1 : ℤ) : ℚ) := by push_cast; linarith
  have : a < b + 1 := by exact_mod_cast h2
  omega

theorem roundHalfEven_eq {q : ℚ} {n : ℤ} (h1 : (n : ℚ) - 1 / 2 < q) (h2 : q < n + 1 / 2) :
    roundHalfEven q = n := by
  unfold roundHalfEven
  have hf := Int.floor_le q
  have hf2 := Int.lt_floor_add_one q
  have hle : ⌊q⌋ ≤ n := int_le_of_cast_lt_add_one (by linarith)
  have hge : n ≤ ⌊q⌋ + 1 := int_le_of_cast_lt_add_one (by push_cast; linarith)
  split_ifs with a b c
  · have : n ≤ ⌊q⌋ := int_le_of_cast_lt_add_one (by linarith)
    omega
  · have : ⌊q⌋ + 1 ≤ n := int_le_of_cast_lt_add_one (by push_cast; linarith)
    omega
  · exfalso
    have : n ≤ ⌊q⌋ := int_le_of_cast_lt_add_one (by linarith)
    have : ⌊q⌋ + 1 ≤ n := int_le_of_cast_lt_add_one (by push_cast; linarith)
    omega
  · exfalso
    have : n ≤ ⌊q⌋ := int_le_of_cast_lt_add_one (by linarith)
    have : ⌊q⌋ + 1 ≤ n := int_le_of_cast_lt_add_one (by push_cast; linarith)
    omega

theorem argF2_eq {tieUp : Bool} {q : ℚ} (n : ℕ) (h0 : 0 ≤ q) (h1 : (n : ℚ) - 1 / 2 < q * 100)
    (h2 : q * 100 < n + 1 / 2) : Qt.argF2 tieUp q = Qt.fixed2 false n := by
  unfold Qt.argF2
  have hfl : ⌊q * 100 + 1 / 2⌋ = (n : ℤ) := by
    rw [Int.floor_eq_iff]
    push_cast
    constructor <;> linarith
  rw [abs_of_nonneg h0, hfl,
    roundHalfEven_eq (n := (n : ℤ)) (by exact_mod_cast h1) (by exact_mod_cast h2)]
  have : ¬ q < 0 := not_lt.mpr h0
  simp [this]

theorem roundHalfEven_near (q : ℚ) : |q - (roundHalfEven q : ℚ)| ≤ 1 / 2 := by
  have hf := Int.floor_le q
  have hf2 := Int.lt_floor_add_one q
  unfold roundHalfEven
  rw [abs_le]
  split_ifs with a b c <;> push_cast <;> constructor <;> linarith

/-- An IEEE operation has a relative error of at most `2 ^ (-53)`. -/
theorem roundDouble_near (q : ℚ) : |Ieee.roundDouble q - q| ≤ |q| / 2 ^ 53 := by
  unfold Ieee.roundDouble
  split_ifs with h0
  · simp [h0]
  · have hq : 0 < |q| := abs_pos.mpr h0
    have hu : (0 : ℚ) < 2 ^ (Int.log 2 |q| - 52) := by positivity
    have hle : (2 : ℚ) ^ (Int.log 2 |q| - 52) ≤ |q| / 2 ^ 52 := by
      have h1 := Int.zpow_log_le_self (R := ℚ) (b := 2) (by norm_num) hq
      rw [zpow_sub₀ (by norm_num)]
      have : ((2 : ℕ) : ℚ) = 2 := by norm_num
      rw [this] at h1
      have h52 : (2 : ℚ) ^ (52 : ℤ) = 2 ^ 52 := by norm_cast
      rw [h52]
      exact div_le_div_of_nonneg_right h1 (by positivity)
    have hn := roundHalfEven_near (q / 2 ^ (Int.log 2 |q| - 52))
    generalize (2 : ℚ) ^ (Int.log 2 |q| - 52) = u at hu hle hn ⊢
    generalize (roundHalfEven (q / u) : ℚ) = r at hn ⊢
    have e : r * u - q = -(q / u - r) * u := by field_simp; ring
    rw [e, abs_mul, abs_neg, abs_of_pos hu]
    calc |q / u - r| * u ≤ 1 / 2 * u := by
          exact mul_le_mul_of_nonneg_right hn (le_of_lt hu)
      _ ≤ 1 / 2 * (|q| / 2 ^ 52) := by linarith
      _ = |q| / 2 ^ 53 := by ring

theorem roundDouble_bounds {q : ℚ} (hq : 0 < q) :
    q * (1 - 1 / 2 ^ 53) ≤ Ieee.roundDouble q ∧ Ieee.roundDouble q ≤ q * (1 + 1 / 2 ^ 53) := by
  have h := roundDouble_near q
  rw [abs_of_pos hq, abs_le] at h
  constructor
  · have := h.1; linarith [show q * (1 - 1 / 2 ^ 53) = q - q / 2 ^ 53 by ring]
  · have := h.2; linarith [show q * (1 + 1 / 2 ^ 53) = q + q / 2 ^ 53 by ring]

/-- The text of a rounded positive quotient that stays within half a hundredth
of `n / 100`. -/
theorem argF2_roundDouble {tieUp : Bool} {q : ℚ} (n : ℕ) (hq : 0 < q)
    (h1 : (n : ℚ) - 1 / 2 < q * (1 - 1 / 2 ^ 53) * 100)
    (h2 : q * (1 + 1 / 2 ^ 53) * 100 < n + 1 / 2) :
    Qt.argF2 tieUp (Ieee.roundDouble q) = Qt.fixed2 false n := by
  obtain ⟨hl, hu⟩ := roundDouble_bounds hq
  have hpos : 0 ≤ Ieee.roundDouble q :=
    le_trans (mul_nonneg (le_of_lt hq) (by norm_num)) hl
  apply argF2_eq n hpos
  · linarith
  · linarith

theorem digitChar_isDigit (d : ℕ) : (Qt.digitChar d).isDigit = true := by
  have h : d % 10 < 10 := Nat.mod_lt _ (by norm_num)
  unfold Qt.digitChar
  generalize d % 10 = r at h
  interval_cases r <;> decide

/-- The text of `argF2` ends in a decimal point followed by exactly two
digits. -/
theorem argF2_two_decimals (tieUp : Bool) (q : ℚ) :
    ∃ (pre : String) (d1 d2 : Char),
      Qt.argF2 tieUp q = pre ++ "." ++ String.mk [d1, d2] ∧ d1.isDigit = true ∧ d2.isDigit = true :=
  ⟨_, _, _, rfl, digitChar_isDigit _, digitChar_isDigit _⟩


theorem toInt_nonneg {r : ℚ} (h : -1 < r) : 0 ≤ Ieee.toInt r := by
  unfold Ieee.toInt
  split_ifs with h0
  · exact Int.floor_nonneg.mpr h0
  · have : (-1 : ℤ) < ⌈r⌉ := Int.lt_ceil.mpr (by exact_mod_cast h)
    omega

theorem toInt_lt {r : ℚ} (m : ℕ) (hm : 0 < m) (h : r < m) : Ieee.toInt r < m := by
  unfold Ieee.toInt
  split_ifs with h0
  · exact Int.floor_lt.mpr (by exact_mod_cast h)
  · have : ⌈r⌉ ≤ 0 := Int.ceil_le.mpr (by exact_mod_cast le_of_lt (not_le.mp h0))
    omega

theorem le_toInt {r : ℚ} (m : ℕ) (h : (m : ℚ) ≤ r) : (m : ℤ) ≤ Ieee.toInt r := by
  unfold Ieee.toInt
  have h0 : 0 ≤ r := le_trans (by positivity) h
  rw [if_pos h0]
  exact Int.le_floor.mpr (by exact_mod_cast h)

theorem toInt_le_neg_one {r : ℚ} (h : r ≤ -1) : Ieee.toInt r ≤ -1 := by
  unfold Ieee.toInt
  rw [if_neg (by linarith)]
  exact Int.ceil_le.mpr (by exact_mod_cast h)

theorem label_of_pos (log10 : ℚ → ℚ) {tieUp : Bool} {v : ℚ} (hv : 0 < v) :
    FreqScaleDraw.label log10 tieUp v = some (FreqScaleDraw.rtn tieUp (Ieee.toInt (log10 v)) v) := by
  unfold FreqScaleDraw.label
  rw [if_neg (not_le.mpr hv)]

theorem rtn_hz {tieUp : Bool} {e : ℤ} (h1 : 0 ≤ e) (h2 : e < 3) (v : ℚ) :
    FreqScaleDraw.rtn tieUp e v = Qt.argF2 tieUp v ++ " Hz" := by
  interval_cases e <;> rfl

theorem rtn_khz {tieUp : Bool} {e : ℤ} (h1 : 3 ≤ e) (h2 : e < 6) (v : ℚ) :
    FreqScaleDraw.rtn tieUp e v = Qt.argF2 tieUp (Ieee.roundDouble (v / 1000)) ++ " kHz" := by
  interval_cases e <;> rfl

theorem rtn_mhz {tieUp : Bool} {e : ℤ} (h1 : 6 ≤ e) (h2 : e < 9) (v : ℚ) :
    FreqScaleDraw.rtn tieUp e v = Qt.argF2 tieUp (Ieee.roundDouble (v / 1000000)) ++ " MHz" := by
  interval_cases e <;> rfl

theorem rtn_ghz {tieUp : Bool} {e : ℤ} (h1 : 9 ≤ e) (h2 : e < 10) (v : ℚ) :
    FreqScaleDraw.rtn tieUp e v = Qt.argF2 tieUp (Ieee.roundDouble (v / 1000000000)) ++ " GHz" := by
  interval_cases e; rfl

/-- No `case` of the `switch` matches an exponent below 0 or above 9. -/
theorem rtn_no_case {tieUp : Bool} {e : ℤ} (h : e < 0 ∨ 9 < e) (v : ℚ) : FreqScaleDraw.rtn tieUp e v = "" := by
  unfold FreqScaleDraw.rtn
  split <;> first | rfl | (exfalso; omega)

/-- The label in terms of the computed logarithm `r = log10 v`: the unit is
chosen by the range of `r`. -/
theorem label_by_computed_log (log10 : ℚ → ℚ) {tieUp : Bool} {v : ℚ} (hv : 0 < v) :
    FreqScaleDraw.label log10 tieUp v = some
      (if log10 v ≤ -1 then ""
       else if log10 v < 3 then Qt.argF2 tieUp v ++ " Hz"
       else if log10 v < 6 then Qt.argF2 tieUp (Ieee.roundDouble (v / 1000)) ++ " kHz"
       else if log10 v < 9 then Qt.argF2 tieUp (Ieee.roundDouble (v / 1000000)) ++ " MHz"
       else if log10 v < 10 then Qt.argF2 tieUp (Ieee.roundDouble (v / 1000000000)) ++ " GHz"
       else "") := by
  rw [label_of_pos log10 hv]
  congr 1
  split_ifs with a b c d e
  · exact rtn_no_case (Or.inl (by have := toInt_le_neg_one a; omega)) v
  · exact rtn_hz (toInt_nonneg (not_le.mp a)) (toInt_lt 3 (by norm_num) (by exact_mod_cast b)) v
  · exact rtn_khz (le_toInt 3 (by exact_mod_cast not_lt.mp b))
      (toInt_lt 6 (by norm_num) (by exact_mod_cast c)) v
  · exact rtn_mhz (le_toInt 6 (by exact_mod_cast not_lt.mp c))
      (toInt_lt 9 (by norm_num) (by exact_mod_cast d)) v
  · exact rtn_ghz (le_toInt 9 (by exact_mod_cast not_lt.mp d))
      (toInt_lt 10 (by norm_num) (by exact_mod_cast e)) v
  · exact rtn_no_case (Or.inr (by
      have := le_toInt (r := log10 v) 10 (by exact_mod_cast not_lt.mp e); omega)) v

theorem label_by_range_eq (log10 : ℚ → ℚ) (tieUp : Bool) (v : ℚ)
    (hlo : 1 ≤ v) (hhi : v < 10 ^ 10)
    (h0 : -1 < log10 v) (h3 : Agrees log10 v 3) (h6 : Agrees log10 v 6)
    (h9 : Agrees log10 v 9) (h10 : Agrees log10 v 10) :
    FreqScaleDraw.label log10 tieUp v = some
      (if v < 10 ^ 3 then Qt.argF2 tieUp v ++ " Hz"
       else if v < 10 ^ 6 then Qt.argF2 tieUp (Ieee.roundDouble (v / 10 ^ 3)) ++ " kHz"
       else if v < 10 ^ 9 then Qt.argF2 tieUp (Ieee.roundDouble (v / 10 ^ 6)) ++ " MHz"
       else Qt.argF2 tieUp (Ieee.roundDouble (v / 10 ^ 9)) ++ " GHz") := by
  rw [label_by_computed_log log10 (lt_of_lt_of_le one_pos hlo)]
  unfold Agrees at h3 h6 h9 h10
  simp only [Nat.cast_ofNat] at h3 h6 h9 h10
  rw [if_neg (not_le.mpr h0)]
  simp only [h3, h6, h9, h10, hhi, if_true]
  norm_num

theorem int_log_two_eq {q : ℚ} (a : ℤ) (h1 : (2 : ℚ) ^ a ≤ q) (h2 : q < 2 ^ (a + 1)) :
    Int.log 2 |q| = a := by
  have hq : 0 < q := lt_of_lt_of_le (by positivity) h1
  rw [abs_of_pos hq]
  apply le_antisymm
  · have := (Int.lt_zpow_iff_log_lt (R := ℚ) (b := 2) (by norm_num) (x := a + 1) hq).mp
      (by exact_mod_cast h2)
    omega
  · exact (Int.zpow_le_iff_le_log (R := ℚ) (b := 2) (by norm_num) hq).mp
      (by exact_mod_cast h1)

/-- The double nearest to a positive `q` with `2 ^ a ≤ q < 2 ^ (a + 1)` that is
within less than half a unit in the last place of `n * 2 ^ (a - 52)`. -/
theorem roundDouble_eq {q : ℚ} (a n : ℤ) (h1 : (2 : ℚ) ^ a ≤ q) (h2 : q < 2 ^ (a + 1))
    (h3 : (n : ℚ) - 1 / 2 < q / 2 ^ (a - 52)) (h4 : q / 2 ^ (a - 52) < n + 1 / 2) :
    Ieee.roundDouble q = n * 2 ^ (a - 52) := by
  have hq : 0 < q := lt_of_lt_of_le (by positivity) h1
  unfold Ieee.roundDouble
  rw [if_neg (ne_of_gt hq), int_log_two_eq a h1 h2, roundHalfEven_eq h3 h4]

theorem isDouble_belowThousand : Ieee.IsDouble belowThousand := by
  unfold Ieee.IsDouble
  rw [roundDouble_eq 9 8796093022207999 (by norm_num [belowThousand])
    (by norm_num [belowThousand]) (by norm_num [belowThousand])
    (by norm_num [belowThousand])]
  norm_num [belowThousand]

theorem isDouble_belowTenGiga : Ieee.IsDouble belowTenGiga := by
  unfold Ieee.IsDouble
  rw [roundDouble_eq 33 5242879999999999 (by norm_num [belowTenGiga])
    (by norm_num [belowTenGiga]) (by norm_num [belowTenGiga])
    (by norm_num [belowTenGiga])]
  norm_num [belowTenGiga]

theorem isDouble_doubleTenth : Ieee.IsDouble doubleTenth := by
  unfold Ieee.IsDouble
  rw [roundDouble_eq (-4) 7205759403792794 (by norm_num [doubleTenth])
    (by norm_num [doubleTenth]) (by norm_num [doubleTenth])
    (by norm_num [doubleTenth])]
  norm_num [doubleTenth]

/-- The literal `0.1` is the double nearest to one tenth. -/
theorem roundDouble_tenth : Ieee.roundDouble (1 / 10) = doubleTenth := by
  rw [roundDouble_eq (-4) 7205759403792794 (by norm_num) (by norm_num) (by norm_num)
    (by norm_num)]
  norm_num [doubleTenth]


/-! ### The exact logarithm next to a power of ten -/

theorem two_lt_log_ten : (2 : ℝ) < Real.log 10 := by
  rw [Real.lt_log_iff_exp_lt (by norm_num)]
  have h1 := Real.exp_one_lt_d9
  have h2 : Real.exp 2 = Real.exp 1 * Real.exp 1 := by
    rw [← Real.exp_add]; norm_num
  rw [h2]
  have hpos : 0 < Real.exp 1 := Real.exp_pos 1
  nlinarith

/-- A power of ten grows at least linearly: `1 + 2 ε ≤ 10 ^ ε` for `ε ≥ 0`. -/
theorem one_add_le_ten_rpow {ε : ℝ} (hε : 0 ≤ ε) : 1 + 2 * ε ≤ (10 : ℝ) ^ ε := by
  rw [Real.rpow_def_of_pos (by norm_num)]
  have h := Real.add_one_le_exp (Real.log 10 * ε)
  have h2 := two_lt_log_ten
  nlinarith

/-- The exact logarithm of a number a little below `10 ^ k` is below `k` by
less than `ε`. -/
theorem logb_below_pow_ten (k : ℕ) (ε δ : ℚ) (hε : 0 < ε) (hδ1 : δ < 1)
    (hδ0 : 0 < δ) (h : 1 < (1 + 2 * ε) * (1 - δ)) :
    (k : ℝ) - (ε : ℝ) < Real.logb 10 (((10 : ℚ) ^ k * (1 - δ) : ℚ) : ℝ) ∧
    Real.logb 10 (((10 : ℚ) ^ k * (1 - δ) : ℚ) : ℝ) < k := by
  have hy : (((10 : ℚ) ^ k * (1 - δ) : ℚ) : ℝ) = (10 : ℝ) ^ k * (1 - (δ : ℝ)) := by
    push_cast; ring
  rw [hy]
  have hδR : (δ : ℝ) < 1 := by exact_mod_cast hδ1
  have hδ0R : (0 : ℝ) < δ := by exact_mod_cast hδ0
  have hεR : (0 : ℝ) < ε := by exact_mod_cast hε
  have hR : (1 : ℝ) < (1 + 2 * (ε : ℝ)) * (1 - (δ : ℝ)) := by exact_mod_cast h
  have hpow : (0 : ℝ) < 10 ^ k := by positivity
  have hpos : (0 : ℝ) < 10 ^ k * (1 - (δ : ℝ)) := mul_pos hpow (by linarith)
  constructor
  · rw [Real.lt_logb_iff_rpow_lt (by norm_num) hpos, Real.rpow_sub (by norm_num),
      Real.rpow_natCast, div_lt_iff₀ (by positivity)]
    have h1 := one_add_le_ten_rpow (le_of_lt hεR)
    have h2 : (1 : ℝ) < (10 : ℝ) ^ (ε : ℝ) * (1 - (δ : ℝ)) :=
      lt_of_lt_of_le hR (mul_le_mul_of_nonneg_right h1 (by linarith))
    nlinarith
  · rw [Real.logb_lt_iff_lt_rpow (by norm_num) hpos, Real.rpow_natCast]
    nlinarith

/-- The exact logarithm of a number a little above `10 ^ (-k)` is above `-k`
by less than `ε`. -/
theorem logb_above_inv_pow_ten (k : ℕ) (ε δ : ℚ) (hε : 0 < ε) (hδ0 : 0 < δ)
    (h : δ < 2 * ε) :
    -(k : ℝ) < Real.logb 10 (((1 + δ) / (10 : ℚ) ^ k : ℚ) : ℝ) ∧
    Real.logb 10 (((1 + δ) / (10 : ℚ) ^ k : ℚ) : ℝ) < -(k : ℝ) + (ε : ℝ) := by
  have hy : (((1 + δ) / (10 : ℚ) ^ k : ℚ) : ℝ) = (1 + (δ : ℝ)) / (10 : ℝ) ^ k := by
    push_cast; ring
  rw [hy]
  have hδ0R : (0 : ℝ) < δ := by exact_mod_cast hδ0
  have hεR : (0 : ℝ) < ε := by exact_mod_cast hε
  have hR : (δ : ℝ) < 2 * (ε : ℝ) := by exact_mod_cast h
  have hpow : (0 : ℝ) < 10 ^ k := by positivity
  have hpos : (0 : ℝ) < (1 + (δ : ℝ)) / 10 ^ k := div_pos (by linarith) hpow
  constructor
  · rw [Real.lt_logb_iff_rpow_lt (by norm_num) hpos, Real.rpow_neg (by norm_num),
      Real.rpow_natCast, lt_div_iff₀ hpow, inv_mul_cancel₀ (ne_of_gt hpow)]
    linarith
  · rw [Real.logb_lt_iff_lt_rpow (by norm_num) hpos, Real.rpow_add (by norm_num),
      Real.rpow_neg (by norm_num), Real.rpow_natCast, div_lt_iff₀ hpow]
    have h1 := one_add_le_ten_rpow (le_of_lt hεR)
    have : ((10 : ℝ) ^ k)⁻¹ * (10 : ℝ) ^ (ε : ℝ) * 10 ^ k = (10 : ℝ) ^ (ε : ℝ) := by
      field_simp
    rw [this]
    linarith

/-- C1, amended. For every frequency `v` with `1 ≤ v < 10^10` whose computed
logarithm `std::log10(v)` lies on the same side of 3, 6, 9 and 10 as the exact
logarithm (and above -1), `FreqScaleDraw::label(v)` returns a label, which is
the scaled value in fixed notation with two decimals followed by the unit: `v`
and `" Hz"` below `10^3`, the double quotient `v/1e3` and `" kHz"` below `10^6`,
`v/1e6` and `" MHz"` below `10^9`, and `v/1e9` and `" GHz"` from there on. The
label ends in a decimal point, exactly two digits and the unit. -/
theorem label_unit_by_range (log10 : ℚ → ℚ) (tieUp : Bool) (v : ℚ)
    (hlo : 1 ≤ v) (hhi : v < 10 ^ 10)
    (h0 : -1 < log10 v) (h3 : Agrees log10 v 3) (h6 : Agrees log10 v 6)
    (h9 : Agrees log10 v 9) (h10 : Agrees log10 v 10) :
    FreqScaleDraw.label log10 tieUp v = some
      (if v < 10 ^ 3 then Qt.argF2 tieUp v ++ " Hz"
       else if v < 10 ^ 6 then Qt.argF2 tieUp (Ieee.roundDouble (v / 10 ^ 3)) ++ " kHz"
       else if v < 10 ^ 9 then Qt.argF2 tieUp (Ieee.roundDouble (v / 10 ^ 6)) ++ " MHz"
       else Qt.argF2 tieUp (Ieee.roundDouble (v / 10 ^ 9)) ++ " GHz") ∧
    ∃ (pre : String) (d1 d2 : Char) (u : String),
      FreqScaleDraw.label log10 tieUp v = some (pre ++ "." ++ String.mk [d1, d2] ++ u) ∧
      d1.isDigit = true ∧ d2.isDigit = true ∧
      (u = " Hz" ∨ u = " kHz" ∨ u = " MHz" ∨ u = " GHz") := by
  have key := label_by_range_eq log10 tieUp v hlo hhi h0 h3 h6 h9 h10
  refine ⟨key, ?_⟩
  rw [key]
  split_ifs
  · obtain ⟨pre, d1, d2, h, h1, h2⟩ := argF2_two_decimals tieUp v
    exact ⟨pre, d1, d2, " Hz", by rw [h], h1, h2, Or.inl rfl⟩
  · obtain ⟨pre, d1, d2, h, h1, h2⟩ := argF2_two_decimals tieUp (Ieee.roundDouble (v / 10 ^ 3))
    exact ⟨pre, d1, d2, " kHz", by rw [h], h1, h2, Or.inr (Or.inl rfl)⟩
  · obtain ⟨pre, d1, d2, h, h1, h2⟩ := argF2_two_decimals tieUp (Ieee.roundDouble (v / 10 ^ 6))
    exact ⟨pre, d1, d2, " MHz", by rw [h], h1, h2, Or.inr (Or.inr (Or.inl rfl))⟩
  · obtain ⟨pre, d1, d2, h, h1, h2⟩ := argF2_two_decimals tieUp (Ieee.roundDouble (v / 10 ^ 9))
    exact ⟨pre, d1, d2, " GHz", by rw [h], h1, h2, Or.inr (Or.inr (Or.inr rfl))⟩

theorem exampleLog10_1320 : exampleLog10 1320 = 7026907796880375 / 2 ^ 51 := by
  norm_num [exampleLog10]

theorem exampleLog10_15012402 : exampleLog10 15012402 = 1009995574396611 / 2 ^ 47 := by
  norm_num [exampleLog10]

theorem exampleLog10_45 : exampleLog10 45 = 7445407261002879 / 2 ^ 52 := by
  norm_num [exampleLog10]

theorem exampleLog10_1015 : exampleLog10 1015 = 6769959673787845 / 2 ^ 51 := by
  norm_num [exampleLog10]

theorem exampleLog10_belowThousand : exampleLog10 belowThousand = 3 := by
  norm_num [exampleLog10, belowThousand]

theorem exampleLog10_belowTenGiga : exampleLog10 belowTenGiga = 10 := by
  norm_num [exampleLog10, belowThousand, belowTenGiga]

theorem exampleLog10_tenGiga : exampleLog10 (10 ^ 10) = 10 := by
  norm_num [exampleLog10, belowThousand, belowTenGiga]

theorem exampleLog10_half : exampleLog10 (1 / 2) = -5422874305198591 / 2 ^ 54 := by
  norm_num [exampleLog10, belowThousand, belowTenGiga]

theorem exampleLog10_threeQuarters : exampleLog10 (3 / 4) = -4501392381066241 / 2 ^ 55 := by
  norm_num [exampleLog10, belowThousand, belowTenGiga]

theorem exampleLog10_doubleTenth : exampleLog10 doubleTenth = -1 := by
  norm_num [exampleLog10, belowThousand, belowTenGiga, doubleTenth]

theorem exampleLog10_sixteenth : exampleLog10 (1 / 16) = -5422874305198591 / 2 ^ 52 := by
  norm_num [exampleLog10, belowThousand, belowTenGiga, doubleTenth]

/-- The quotient `1015 / 1e3` in double arithmetic lies below `1.015` and is
printed as `1.01`. -/
theorem argF2_1015 (tieUp : Bool) : Qt.argF2 tieUp (Ieee.roundDouble (1015 / 10 ^ 3)) = "1.01" := by
  rw [roundDouble_eq 0 4571153621781053 (by norm_num) (by norm_num) (by norm_num)
    (by norm_num)]
  rw [argF2_eq 101 (by norm_num) (by norm_num) (by norm_num)]
  decide

/-- Witness of C1 as amended: with the logarithms computed in double
arithmetic, `1320` gives `"1.32 kHz"`, `15012402` gives `"15.01 MHz"`, `45`
gives `"45.00 Hz"`, and `1015`, whose quotient by `1e3` is a double below
`1.015`, gives `"1.01 kHz"`. -/
theorem label_unit_by_range_witness :
    (∀ tieUp, FreqScaleDraw.label exampleLog10 tieUp 1320 = some "1.32 kHz") ∧
    (∀ tieUp, FreqScaleDraw.label exampleLog10 tieUp 15012402 = some "15.01 MHz") ∧
    (∀ tieUp, FreqScaleDraw.label exampleLog10 tieUp 45 = some "45.00 Hz") ∧
    (∀ tieUp, FreqScaleDraw.label exampleLog10 tieUp 1015 = some "1.01 kHz") := by
  refine ⟨fun tieUp => ?_, fun tieUp => ?_, fun tieUp => ?_, fun tieUp => ?_⟩
  · rw [(label_unit_by_range exampleLog10 tieUp 1320 (by norm_num) (by norm_num)
      (by rw [exampleLog10_1320]; norm_num)
      (by unfold Agrees; rw [exampleLog10_1320]; norm_num)
      (by unfold Agrees; rw [exampleLog10_1320]; norm_num)
      (by unfold Agrees; rw [exampleLog10_1320]; norm_num)
      (by unfold Agrees; rw [exampleLog10_1320]; norm_num)).1]
    rw [if_neg (by norm_num), if_pos (by norm_num)]
    rw [argF2_roundDouble 132 (by norm_num) (by norm_num) (by norm_num)]
    decide
  · rw [(label_unit_by_range exampleLog10 tieUp 15012402 (by norm_num) (by norm_num)
      (by rw [exampleLog10_15012402]; norm_num)
      (by unfold Agrees; rw [exampleLog10_15012402]; norm_num)
      (by unfold Agrees; rw [exampleLog10_15012402]; norm_num)
      (by unfold Agrees; rw [exampleLog10_15012402]; norm_num)
      (by unfold Agrees; rw [exampleLog10_15012402]; norm_num)).1]
    rw [if_neg (by norm_num), if_neg (by norm_num), if_pos (by norm_num)]
    rw [argF2_roundDouble 1501 (by norm_num) (by norm_num) (by norm_num)]
    decide
  · rw [(label_unit_by_range exampleLog10 tieUp 45 (by norm_num) (by norm_num)
      (by rw [exampleLog10_45]; norm_num)
      (by unfold Agrees; rw [exampleLog10_45]; norm_num)
      (by unfold Agrees; rw [exampleLog10_45]; norm_num)
      (by unfold Agrees; rw [exampleLog10_45]; norm_num)
      (by unfold Agrees; rw [exampleLog10_45]; norm_num)).1]
    rw [if_pos (by norm_num)]
    rw [argF2_eq 4500 (by norm_num) (by norm_num) (by norm_num)]
    decide
  · rw [(label_unit_by_range exampleLog10 tieUp 1015 (by norm_num) (by norm_num)
      (by rw [exampleLog10_1015]; norm_num)
      (by unfold Agrees; rw [exampleLog10_1015]; norm_num)
      (by unfold Agrees; rw [exampleLog10_1015]; norm_num)
      (by unfold Agrees; rw [exampleLog10_1015]; norm_num)
      (by unfold Agrees; rw [exampleLog10_1015]; norm_num)).1]
    rw [if_neg (by norm_num), if_pos (by norm_num), argF2_1015 tieUp]
    decide

/-- Counterexample to C1: the doubles `999.9999999999999` and
`9999999999.999998` lie in the ranges of `" Hz"` and `" GHz"`. Their exact
logarithms are below 3 and 10 by less than half a unit in the last place, so
the doubles nearest to them are 3 and 10, and these `std::log10` returns. With
these the
`switch` takes `case 3` for the first, and the label is `"1.00 kHz"` where
the claim has `"1000.00 Hz"`; for the second no `case` matches and the label
is empty where the claim has a label with `" GHz"`. -/
theorem label_below_power_of_ten :
    (Ieee.IsDouble belowThousand ∧ 1 ≤ belowThousand ∧ belowThousand < 10 ^ 3 ∧
      ((3 : ℝ) - ((1 / 2 ^ 52 : ℚ) : ℝ) < Real.logb 10 ((belowThousand : ℚ) : ℝ) ∧
        Real.logb 10 ((belowThousand : ℚ) : ℝ) < 3) ∧
      exampleLog10 belowThousand = 3 ∧
      (∀ tieUp, FreqScaleDraw.label exampleLog10 tieUp belowThousand = some "1.00 kHz") ∧
      (∀ tieUp, Qt.argF2 tieUp belowThousand ++ " Hz" = "1000.00 Hz") ∧
      (∀ (log10 : ℚ → ℚ) (tieUp : Bool), log10 belowThousand = 3 →
        FreqScaleDraw.label log10 tieUp belowThousand = some "1.00 kHz")) ∧
    (Ieee.IsDouble belowTenGiga ∧ 10 ^ 9 ≤ belowTenGiga ∧ belowTenGiga < 10 ^ 10 ∧
      ((10 : ℝ) - ((1 / 2 ^ 50 : ℚ) : ℝ) < Real.logb 10 ((belowTenGiga : ℚ) : ℝ) ∧
        Real.logb 10 ((belowTenGiga : ℚ) : ℝ) < 10) ∧
      exampleLog10 belowTenGiga = 10 ∧
      (∀ tieUp, FreqScaleDraw.label exampleLog10 tieUp belowTenGiga = some "") ∧
      (∀ (log10 : ℚ → ℚ) (tieUp : Bool), log10 belowTenGiga = 10 →
        FreqScaleDraw.label log10 tieUp belowTenGiga = some "")) := by
  have hk : ∀ (log10 : ℚ → ℚ) (tieUp : Bool), log10 belowThousand = 3 →
      FreqScaleDraw.label log10 tieUp belowThousand = some "1.00 kHz" := by
    intro log10 tieUp h
    rw [label_by_computed_log log10 (by norm_num [belowThousand]), h]
    rw [if_neg (by norm_num), if_neg (by norm_num), if_pos (by norm_num)]
    rw [argF2_roundDouble 100 (by norm_num [belowThousand]) (by norm_num [belowThousand])
      (by norm_num [belowThousand])]
    decide
  have hg : ∀ (log10 : ℚ → ℚ) (tieUp : Bool), log10 belowTenGiga = 10 →
      FreqScaleDraw.label log10 tieUp belowTenGiga = some "" := by
    intro log10 tieUp h
    rw [label_by_computed_log log10 (by norm_num [belowTenGiga]), h]
    rw [if_neg (by norm_num), if_neg (by norm_num), if_neg (by norm_num),
      if_neg (by norm_num), if_neg (by norm_num)]
  refine ⟨⟨isDouble_belowThousand, by norm_num [belowThousand], by norm_num [belowThousand],
      ?_, exampleLog10_belowThousand, fun t => hk _ t exampleLog10_belowThousand,
      fun tieUp => ?_, hk⟩,
    ⟨isDouble_belowTenGiga, by norm_num [belowTenGiga], by norm_num [belowTenGiga],
      ?_, exampleLog10_belowTenGiga, fun t => hg _ t exampleLog10_belowTenGiga, hg⟩⟩
  · have h := logb_below_pow_ten 3 (1 / 2 ^ 52) (1 / (1000 * 2 ^ 43)) (by norm_num)
      (by norm_num) (by norm_num) (by norm_num)
    have e : (10 : ℚ) ^ 3 * (1 - 1 / (1000 * 2 ^ 43)) = belowThousand := by
      norm_num [belowThousand]
    rw [e] at h
    exact_mod_cast h
  · rw [argF2_eq 100000 (by norm_num [belowThousand]) (by norm_num [belowThousand])
      (by norm_num [belowThousand])]
    decide
  · have h := logb_below_pow_ten 10 (1 / 2 ^ 50) (1 / (10 ^ 10 * 2 ^ 19)) (by norm_num)
      (by norm_num) (by norm_num) (by norm_num)
    have e : (10 : ℚ) ^ 10 * (1 - 1 / (10 ^ 10 * 2 ^ 19)) = belowTenGiga := by
      norm_num [belowTenGiga]
    rw [e] at h
    exact_mod_cast h

/-- Counterexample to C7: the frequency `1/2` is positive and the floor of its
base-10 logarithm is `-1`, below 0, yet the label is not empty: the computed
logarithm is `-0.30...`, the conversion to `int` turns it into the exponent
`0`, `case 0` matches and the label is `"0.50 Hz"`. The same holds with any
computed logarithm between -1 and 1. -/
theorem label_half_not_empty :
    (0 : ℚ) < 1 / 2 ∧ Int.log 10 (1 / 2 : ℚ) = -1 ∧
    Ieee.toInt (exampleLog10 (1 / 2)) = 0 ∧
    (∀ tieUp, FreqScaleDraw.label exampleLog10 tieUp (1 / 2) = some "0.50 Hz") ∧
    (∀ tieUp, FreqScaleDraw.label exampleLog10 tieUp (1 / 2) ≠ some "") ∧
    (∀ (log10 : ℚ → ℚ) (tieUp : Bool), -1 < log10 (1 / 2) → log10 (1 / 2) < 1 →
      FreqScaleDraw.label log10 tieUp (1 / 2) = some "0.50 Hz") := by
  have hk : ∀ (log10 : ℚ → ℚ) (tieUp : Bool), -1 < log10 (1 / 2) → log10 (1 / 2) < 1 →
      FreqScaleDraw.label log10 tieUp (1 / 2) = some "0.50 Hz" := by
    intro log10 tieUp h1 h2
    rw [label_by_computed_log log10 (by norm_num), if_neg (not_le.mpr h1),
      if_pos (by linarith), argF2_eq 50 (by norm_num) (by norm_num) (by norm_num)]
    decide
  have hl : ∀ tieUp, FreqScaleDraw.label exampleLog10 tieUp (1 / 2) = some "0.50 Hz" :=
    fun t => hk exampleLog10 t (by rw [exampleLog10_half]; norm_num)
      (by rw [exampleLog10_half]; norm_num)
  refine ⟨by norm_num, ?_, ?_, hl, fun tieUp => ?_, hk⟩
  · apply le_antisymm
    · have := (Int.lt_zpow_iff_log_lt (R := ℚ) (b := 10) (by norm_num) (x := 0)
        (r := 1 / 2) (by norm_num)).mp (by norm_num)
      omega
    · exact (Int.zpow_le_iff_le_log (R := ℚ) (b := 10) (by norm_num) (r := 1 / 2)
        (by norm_num)).mp (by norm_num)
  · apply le_antisymm
    · have := toInt_lt (r := exampleLog10 (1 / 2)) 1 (by norm_num)
        (by rw [exampleLog10_half]; norm_num)
      omega
    · exact toInt_nonneg (by rw [exampleLog10_half]; norm_num)
  · rw [hl tieUp]; decide

/-- C7, amended. For every positive frequency `v` below 1 or from `10^10` on
whose computed logarithm `std::log10(v)` lies on the same side of 3 and 10 as
the exact logarithm, `FreqScaleDraw::label(v)` returns a label, and it is
empty except when `v < 1` and the computed logarithm is above -1: then the
conversion to `int` gives the exponent 0, `case 0` matches and the label is
`v` with two decimals followed by `" Hz"`. Where moreover the computed
logarithm is at most -1 exactly when `v ≤ 1/10`, the exception is
`1/10 < v < 1`. -/
theorem label_outside_range (log10 : ℚ → ℚ) (tieUp : Bool) (v : ℚ) (hpos : 0 < v)
    (hout : v < 1 ∨ 10 ^ 10 ≤ v) (h3 : Agrees log10 v 3) (h10 : Agrees log10 v 10) :
    FreqScaleDraw.label log10 tieUp v = some
      (if -1 < log10 v ∧ v < 1 then Qt.argF2 tieUp v ++ " Hz" else "") ∧
    ((log10 v ≤ -1 ↔ v ≤ 1 / 10) →
      FreqScaleDraw.label log10 tieUp v = some
        (if 1 / 10 < v ∧ v < 1 then Qt.argF2 tieUp v ++ " Hz" else "")) := by
  have key : FreqScaleDraw.label log10 tieUp v = some
      (if -1 < log10 v ∧ v < 1 then Qt.argF2 tieUp v ++ " Hz" else "") := by
    rw [label_by_computed_log log10 hpos]
    unfold Agrees at h3 h10
    simp only [Nat.cast_ofNat] at h3 h10
    rcases hout with hlt | hge
    · have hl3 : log10 v < 3 := h3.mpr (lt_trans hlt (by norm_num))
      by_cases hm : log10 v ≤ -1
      · rw [if_pos hm, if_neg]
        intro h; linarith [h.1]
      · rw [if_neg hm, if_pos hl3, if_pos ⟨not_le.mp hm, hlt⟩]
    · have hg10 : ¬ log10 v < 10 := fun h => absurd (h10.mp h) (not_lt.mpr hge)
      have hg : 10 ≤ log10 v := not_lt.mp hg10
      rw [if_neg (by linarith), if_neg (by linarith), if_neg (by linarith),
        if_neg (by linarith), if_neg hg10, if_neg]
      intro h
      have : (1 : ℚ) ≤ v := le_trans (by norm_num) hge
      linarith [h.2]
  refine ⟨key, ?_⟩
  intro hm
  rw [key]
  congr 1
  by_cases h : 1 / 10 < v
  · have : -1 < log10 v := by
      by_contra hc
      exact absurd (hm.mp (not_lt.mp hc)) (not_le.mpr h)
    simp only [this, h, true_and]
  · have : ¬ -1 < log10 v := not_lt.mpr (hm.mpr (not_lt.mp h))
    simp only [this, h, false_and]

/-- Witness of C7 as amended, with the logarithms computed in double
arithmetic: `10^10`, the double `0.1` (a rational above `1/10` whose computed
logarithm is -1) and `1/16` get the empty label, and `3/4` gets the label
`"0.75 Hz"`. -/
theorem label_outside_range_witness :
    (∀ tieUp, FreqScaleDraw.label exampleLog10 tieUp (10 ^ 10) = some "") ∧
    ((1 : ℚ) / 10 < doubleTenth ∧
      ∀ tieUp, FreqScaleDraw.label exampleLog10 tieUp doubleTenth = some "") ∧
    (∀ tieUp, FreqScaleDraw.label exampleLog10 tieUp (1 / 16) = some "") ∧
    (∀ tieUp, FreqScaleDraw.label exampleLog10 tieUp (3 / 4) = some "0.75 Hz") := by
  refine ⟨fun tieUp => ?_, ⟨by norm_num [doubleTenth], fun tieUp => ?_⟩, fun tieUp => ?_,
    fun tieUp => ?_⟩
  · rw [(label_outside_range exampleLog10 tieUp (10 ^ 10) (by norm_num) (Or.inr (le_refl _))
      (by unfold Agrees; rw [exampleLog10_tenGiga]; norm_num)
      (by unfold Agrees; rw [exampleLog10_tenGiga]; norm_num)).1]
    rw [if_neg (by norm_num)]
  · rw [(label_outside_range exampleLog10 tieUp doubleTenth (by norm_num [doubleTenth])
      (Or.inl (by norm_num [doubleTenth]))
      (by unfold Agrees; rw [exampleLog10_doubleTenth]; norm_num [doubleTenth])
      (by unfold Agrees; rw [exampleLog10_doubleTenth]; norm_num [doubleTenth])).1]
    rw [exampleLog10_doubleTenth, if_neg (by norm_num)]
  · rw [(label_outside_range exampleLog10 tieUp (1 / 16) (by norm_num) (Or.inl (by norm_num))
      (by unfold Agrees; rw [exampleLog10_sixteenth]; norm_num)
      (by unfold Agrees; rw [exampleLog10_sixteenth]; norm_num)).1]
    rw [exampleLog10_sixteenth, if_neg (by norm_num)]
  · rw [(label_outside_range exampleLog10 tieUp (3 / 4) (by norm_num) (Or.inl (by norm_num))
      (by unfold Agrees; rw [exampleLog10_threeQuarters]; norm_num)
      (by unfold Agrees; rw [exampleLog10_threeQuarters]; norm_num)).1]
    rw [exampleLog10_threeQuarters, if_pos (by norm_num),
      argF2_eq 75 (by norm_num) (by norm_num) (by norm_num)]
    decide

/-- The computed logarithm of the double `0.1` is the double nearest to the
exact one: the exact logarithm is above -1 by less than half a unit in the
last place. -/
theorem logb_doubleTenth :
    (-1 : ℝ) < Real.logb 10 ((doubleTenth : ℚ) : ℝ) ∧
    Real.logb 10 ((doubleTenth : ℚ) : ℝ) < -1 + ((1 / 2 ^ 54 : ℚ) : ℝ) := by
  have h := logb_above_inv_pow_ten 1 (1 / 2 ^ 54) (1 / 2 ^ 54) (by norm_num) (by norm_num)
    (by norm_num)
  have e : (1 + 1 / 2 ^ 54) / (10 : ℚ) ^ 1 = doubleTenth := by
    norm_num [doubleTenth]
  rw [e] at h
  exact_mod_cast h

/-! ## The statistics scan -/

theorem foldl_statsStep (ys : List ℚ) (a b c : ℚ) :
    ys.foldl statsStep (a, b, c) = (ys.foldl stdMax a, ys.foldl stdMin b, c + ys.sum) := by
  induction ys generalizing a b c with
  | nil => simp
  | cons y ys ih => simp [statsStep, ih, add_assoc]

theorem le_foldl_stdMax (ys : List ℚ) (a : ℚ) : a ≤ ys.foldl stdMax a := by
  induction ys generalizing a with
  | nil => simp
  | cons y ys ih =>
    refine le_trans ?_ (ih (stdMax a y))
    unfold stdMax
    split_ifs with h
    · exact le_of_lt h
    · exact le_refl a

theorem foldl_stdMax_ge (ys : List ℚ) (a : ℚ) : ∀ y ∈ ys, y ≤ ys.foldl stdMax a := by
  induction ys generalizing a with
  | nil => simp
  | cons z ys ih =>
    intro y hy
    rcases List.mem_cons.mp hy with rfl | hy
    · refine le_trans ?_ (le_foldl_stdMax ys (stdMax a y))
      unfold stdMax
      split_ifs with h
      · exact le_refl y
      · exact not_lt.mp h
    · exact ih (stdMax a z) y hy

theorem foldl_stdMax_mem (ys : List ℚ) (a : ℚ) : ys.foldl stdMax a = a ∨ ys.foldl stdMax a ∈ ys := by
  induction ys generalizing a with
  | nil => simp
  | cons z ys ih =>
    rcases ih (stdMax a z) with h | h
    · simp only [List.foldl_cons, h, List.mem_cons]
      unfold stdMax
      split_ifs
      · exact Or.inr (Or.inl rfl)
      · exact Or.inl rfl
    · exact Or.inr (List.mem_cons_of_mem _ h)

theorem foldl_stdMin_le_init (ys : List ℚ) (a : ℚ) : ys.foldl stdMin a ≤ a := by
  induction ys generalizing a with
  | nil => simp
  | cons y ys ih =>
    refine le_trans (ih (stdMin a y)) ?_
    unfold stdMin
    split_ifs with h
    · exact le_of_lt h
    · exact le_refl a

theorem foldl_stdMin_le (ys : List ℚ) (a : ℚ) : ∀ y ∈ ys, ys.foldl stdMin a ≤ y := by
  induction ys generalizing a with
  | nil => simp
  | cons z ys ih =>
    intro y hy
    rcases List.mem_cons.mp hy with rfl | hy
    · refine le_trans (foldl_stdMin_le_init ys (stdMin a y)) ?_
      unfold stdMin
      split_ifs with h
      · exact le_refl y
      · exact not_lt.mp h
    · exact ih (stdMin a z) y hy

theorem foldl_stdMin_mem (ys : List ℚ) (a : ℚ) : ys.foldl stdMin a = a ∨ ys.foldl stdMin a ∈ ys := by
  induction ys generalizing a with
  | nil => simp
  | cons z ys ih =>
    rcases ih (stdMin a z) with h | h
    · simp only [List.foldl_cons, h, List.mem_cons]
      unfold stdMin
      split_ifs
      · exact Or.inr (Or.inl rfl)
      · exact Or.inl rfl
    · exact Or.inr (List.mem_cons_of_mem _ h)

/-- The result of the scan on a sweep with at least one sample, in closed
form. -/
theorem sweepStats_cons (p : ℚ × ℚ) (ps : List (ℚ × ℚ)) :
    sweepStats (p :: ps) = some
      { max := ((p :: ps).map Prod.snd).foldl stdMax p.2
        min := ((p :: ps).map Prod.snd).foldl stdMin p.2
        avg := ((p :: ps).map Prod.snd).sum / (((p :: ps).length : ℕ) : ℚ) } := by
  simp only [sweepStats, foldl_statsStep, zero_add]

theorem sum_le_length_mul (ys : List ℚ) (m : ℚ) (h : ∀ y ∈ ys, y ≤ m) :
    ys.sum ≤ (ys.length : ℚ) * m := by
  induction ys with
  | nil => simp
  | cons y ys ih =>
    have h1 := h y (List.mem_cons_self _ _)
    have h2 := ih fun z hz => h z (List.mem_cons_of_mem _ hz)
    simp only [List.sum_cons, List.length_cons, Nat.cast_add, Nat.cast_one]
    linarith

theorem length_mul_le_sum (ys : List ℚ) (m : ℚ) (h : ∀ y ∈ ys, m ≤ y) :
    (ys.length : ℚ) * m ≤ ys.sum := by
  induction ys with
  | nil => simp
  | cons y ys ih =>
    have h1 := h y (List.mem_cons_self _ _)
    have h2 := ih fun z hz => h z (List.mem_cons_of_mem _ hz)
    simp only [List.sum_cons, List.length_cons, Nat.cast_add, Nat.cast_one]
    linarith

/-- The scan succeeds on a non-empty sweep, and its three results are the
greatest power, the least power and the mean power. -/
theorem sweepStats_facts (sweep : fsweep) (hne : sweep ≠ []) :
    ∃ st, sweepStats sweep = some st ∧
      (st.max ∈ sweep.map Prod.snd ∧ ∀ p ∈ sweep, p.2 ≤ st.max) ∧
      (st.min ∈ sweep.map Prod.snd ∧ ∀ p ∈ sweep, st.min ≤ p.2) ∧
      (sweep.length : ℚ) ≠ 0 ∧
      st.avg = (sweep.map Prod.snd).sum / (sweep.length : ℚ) := by
  cases sweep with
  | nil => exact absurd rfl hne
  | cons p ps =>
    refine ⟨_, sweepStats_cons p ps, ⟨?_, ?_⟩, ⟨?_, ?_⟩, ?_, rfl⟩
    · rcases foldl_stdMax_mem ((p :: ps).map Prod.snd) p.2 with h | h
      · rw [h]; simp
      · exact h
    · intro q hq
      exact foldl_stdMax_ge _ _ _ (List.mem_map_of_mem Prod.snd hq)
    · rcases foldl_stdMin_mem ((p :: ps).map Prod.snd) p.2 with h | h
      · rw [h]; simp
      · exact h
    · intro q hq
      exact foldl_stdMin_le _ _ _ (List.mem_map_of_mem Prod.snd hq)
    · simp only [List.length_cons, Nat.cast_add, Nat.cast_one]
      positivity

/-- C2. On every sweep with at least one sample the statistics scan of
`SweepInspector::loadSweep` returns a result (the first sample exists and the
size it divides by is not zero): `max` is a sample power that no sample
exceeds, `min` is a sample power that no sample is below, and `avg` is the sum
of the sample powers divided by the number of samples. -/
theorem sweepStats_max_min_avg (sweep : fsweep) (hne : sweep ≠ []) :
    ∃ st, sweepStats sweep = some st ∧
      (st.max ∈ sweep.map Prod.snd ∧ ∀ p ∈ sweep, p.2 ≤ st.max) ∧
      (st.min ∈ sweep.map Prod.snd ∧ ∀ p ∈ sweep, st.min ≤ p.2) ∧
      (sweep.length : ℚ) ≠ 0 ∧
      st.avg = (sweep.map Prod.snd).sum / (sweep.length : ℚ) :=
  sweepStats_facts sweep hne

/-- The statistics scan of the example sweep gives `max = -10`, `min = -90` and
`avg = -50`. -/
theorem sweepStats_exampleSweep : sweepStats exampleSweep = some exampleStats := by
  norm_num [exampleSweep, exampleStats, sweepStats, statsStep, stdMax, stdMin]

/-- Witness of C2: on the sweep `[(100,-50), (200,-10), (300,-90)]` the scan
gives `max = -10`, `min = -90` and `avg = -50`. -/
theorem sweepStats_max_min_avg_witness :
    sweepStats exampleSweep = some { max := -10, min := -90, avg := -50 } ∧
    exampleSweep ≠ [] ∧
    ∃ st, sweepStats exampleSweep = some st ∧
      (st.max ∈ exampleSweep.map Prod.snd ∧ ∀ p ∈ exampleSweep, p.2 ≤ st.max) ∧
      (st.min ∈ exampleSweep.map Prod.snd ∧ ∀ p ∈ exampleSweep, st.min ≤ p.2) ∧
      (exampleSweep.length : ℚ) ≠ 0 ∧
      st.avg = (exampleSweep.map Prod.snd).sum / (exampleSweep.length : ℚ) :=
  ⟨sweepStats_exampleSweep, by simp [exampleSweep],
   sweepStats_max_min_avg exampleSweep (by simp [exampleSweep])⟩

/-- C10. For every sweep with at least one sample, the statistics of
`loadSweep` in exact arithmetic satisfy `min ≤ avg ≤ max`; `min` and `max` are
each the power of a sample of the sweep; and when all samples have the same
power `c`, then `min = avg = max = c`. -/
theorem sweepStats_min_le_avg_le_max (sweep : fsweep) (hne : sweep ≠ []) :
    ∃ st, sweepStats sweep = some st ∧
      st.min ≤ st.avg ∧ st.avg ≤ st.max ∧
      (∃ p ∈ sweep, p.2 = st.min) ∧ (∃ p ∈ sweep, p.2 = st.max) ∧
      ∀ c : ℚ, (∀ p ∈ sweep, p.2 = c) → st.min = c ∧ st.avg = c ∧ st.max = c := by
  obtain ⟨st, hst, ⟨hmaxmem, hmax⟩, ⟨hminmem, hmin⟩, hlen, havg⟩ := sweepStats_facts sweep hne
  have hpos : (0 : ℚ) < (sweep.length : ℚ) := by
    have : 0 < sweep.length := List.length_pos.mpr hne
    exact_mod_cast this
  have hlen2 : ((sweep.map Prod.snd).length : ℚ) = (sweep.length : ℚ) := by simp
  have hup : (sweep.map Prod.snd).sum ≤ (sweep.length : ℚ) * st.max := by
    rw [← hlen2]
    apply sum_le_length_mul
    intro y hy
    obtain ⟨p, hp, rfl⟩ := List.mem_map.mp hy
    exact hmax p hp
  have hlo : (sweep.length : ℚ) * st.min ≤ (sweep.map Prod.snd).sum := by
    rw [← hlen2]
    apply length_mul_le_sum
    intro y hy
    obtain ⟨p, hp, rfl⟩ := List.mem_map.mp hy
    exact hmin p hp
  have h1 : st.min ≤ st.avg := by
    rw [havg, le_div_iff₀ hpos]; linarith
  have h2 : st.avg ≤ st.max := by
    rw [havg, div_le_iff₀ hpos]; linarith
  obtain ⟨pmin, hpmin, epmin⟩ := List.mem_map.mp hminmem
  obtain ⟨pmax, hpmax, epmax⟩ := List.mem_map.mp hmaxmem
  refine ⟨st, hst, h1, h2, ⟨pmin, hpmin, epmin⟩, ⟨pmax, hpmax, epmax⟩, ?_⟩
  intro c hc
  have e1 : st.min = c := by rw [← epmin]; exact hc pmin hpmin
  have e2 : st.max = c := by rw [← epmax]; exact hc pmax hpmax
  refine ⟨e1, ?_, e2⟩
  apply le_antisymm
  · rw [← e2]; exact h2
  · rw [← e1]; exact h1

/-- Witness of C10 on the sweep `[(100,-50), (200,-10), (300,-90)]`, and on a
sweep whose two samples both have the power -70, where the three statistics
are -70. -/
theorem sweepStats_min_le_avg_le_max_witness :
    (∃ st, sweepStats exampleSweep = some st ∧
      st.min ≤ st.avg ∧ st.avg ≤ st.max ∧
      (∃ p ∈ exampleSweep, p.2 = st.min) ∧ (∃ p ∈ exampleSweep, p.2 = st.max) ∧
      ∀ c : ℚ, (∀ p ∈ exampleSweep, p.2 = c) → st.min = c ∧ st.avg = c ∧ st.max = c) ∧
    (∃ st, sweepStats flatSweep = some st ∧ st.min = -70 ∧ st.avg = -70 ∧ st.max = -70) :=
  ⟨sweepStats_min_le_avg_le_max exampleSweep (by simp [exampleSweep]),
   by
    obtain ⟨st, hst, -, -, -, -, hflat⟩ :=
      sweepStats_min_le_avg_le_max flatSweep (by simp [flatSweep])
    exact ⟨st, hst, hflat (-70) (by simp [flatSweep])⟩⟩

/-! ## The view controller -/

namespace SweepInspector

theorem loadSweep_bound {s : SweepInspector} {d : QHoundData} {i : ℤ} {st : SweepStats}
    (hd : s.data = some d) (hst : sweepStats (d.getSweep i) = some st) :
    s.loadSweep i = some (s.loaded d i st) := by
  unfold loadSweep
  simp only [hd, sliderMoved, hst]
  cases hc : s.d_curve <;>
    simp [loaded, Qwt.Plot.attach, Qwt.Plot.detachItems, Qwt.Plot.detach, hd]

theorem loadSweep_bound_empty {s : SweepInspector} {d : QHoundData} {i : ℤ}
    (hd : s.data = some d) (hst : sweepStats (d.getSweep i) = none) :
    s.loadSweep i = none := by
  unfold loadSweep
  simp only [hd, sliderMoved, hst]

theorem loadSweep_unbound_eq {s : SweepInspector} (i : ℤ) (hd : s.data = none) :
    s.loadSweep i = some s := by
  unfold loadSweep
  simp only [hd]

theorem loadSweep_cases {s s1 : SweepInspector} {i : ℤ} (h : s.loadSweep i = some s1) :
    s1 = s ∨ ∃ d st, s.data = some d ∧ sweepStats (d.getSweep i) = some st ∧
      s1 = s.loaded d i st := by
  cases hd : s.data with
  | none =>
    rw [loadSweep_unbound_eq i hd] at h
    exact Or.inl (Option.some.inj h).symm
  | some d =>
    cases hst : sweepStats (d.getSweep i) with
    | none => rw [loadSweep_bound_empty hd hst] at h; cases h
    | some st =>
      rw [loadSweep_bound hd hst] at h
      exact Or.inr ⟨d, st, rfl, hst, (Option.some.inj h).symm⟩

theorem loaded_counts (s : SweepInspector) (d : QHoundData) (i : ℤ) (st : SweepStats) :
    (s.loaded d i st).plot.curveCount = 1 ∧ (s.loaded d i st).plot.markerCount = 1 := by
  constructor <;>
    simp [loaded, Qwt.Plot.curveCount, Qwt.Plot.markerCount, Qwt.PlotItem.isCurve,
      Qwt.PlotItem.isMarker, List.countP_cons]

theorem loadSweep_atMostOne {s s1 : SweepInspector} {i : ℤ} (h : s.loadSweep i = some s1)
    (hs : AtMostOne s) : AtMostOne s1 := by
  rcases loadSweep_cases h with rfl | ⟨d, st, -, -, rfl⟩
  · exact hs
  · have := loaded_counts s d i st
    exact ⟨le_of_eq this.1, le_of_eq this.2⟩

theorem valueChanged_atMostOne {s s1 : SweepInspector} {sig : Option ℤ}
    (h : s.valueChanged sig = some s1) (hs : AtMostOne s) : AtMostOne s1 := by
  cases sig with
  | none => simp only [valueChanged] at h; cases h; exact hs
  | some i => exact loadSweep_atMostOne h hs

theorem setpData_atMostOne {s s1 : SweepInspector} {d : QHoundData}
    (h : s.setpData d = some s1) (hs : AtMostOne s) : AtMostOne s1 := by
  unfold setpData at h
  simp only at h
  split at h
  · cases h
  · rename_i s2 h2
    have h3 : AtMostOne s2 := valueChanged_atMostOne h2 (by exact hs)
    exact valueChanged_atMostOne h (by exact h3)

theorem reachable_atMostOne {s : SweepInspector} (hr : Reachable s) : AtMostOne s := by
  induction hr with
  | init ui =>
    constructor <;>
      simp [SweepInspector.new, Qwt.Plot.attach, Qwt.Plot.curveCount, Qwt.Plot.markerCount,
        Qwt.PlotItem.isCurve, Qwt.PlotItem.isMarker, List.countP_cons]
  | bind d _ h ih => exact setpData_atMostOne h ih
  | preview i _ ih =>
    unfold sliderMoved
    split <;> exact ih
  | commit i _ h ih => exact loadSweep_atMostOne h ih

theorem loadSweep_of_nonempty {s : SweepInspector} {d : QHoundData} (i : ℤ)
    (hd : s.data = some d) (hne : d.getSweep i ≠ []) :
    ∃ st, sweepStats (d.getSweep i) = some st ∧ s.loadSweep i = some (s.loaded d i st) := by
  obtain ⟨st, hst, -⟩ := sweepStats_facts (d.getSweep i) hne
  exact ⟨st, hst, loadSweep_bound hd hst⟩

theorem exampleBound_eq : (SweepInspector.new exampleUi).setpData exampleData = some exampleBound := by
  simp [setpData, valueChanged, Qt.Slider.setMaximum, Qt.Slider.setRange, Qt.Slider.setValue,
    Qt.Slider.bound, exampleUi, exampleData, exampleBound, SweepInspector.new]

end SweepInspector

/-- C3. In every state reachable from a freshly constructed inspector by calls
of `setpData`, `sliderMoved` and `loadSweep` that return, at most one curve and
at most one marker are attached to the plot; and when the inspector is bound,
`loadSweep` on an index with a non-empty sweep returns with exactly one curve
and exactly one marker attached, and so does a second `loadSweep` right after
it. -/
theorem one_curve_one_marker (s : SweepInspector) (hr : SweepInspector.Reachable s) :
    s.plot.curveCount ≤ 1 ∧ s.plot.markerCount ≤ 1 ∧
    ∀ d, s.data = some d → ∀ i, d.getSweep i ≠ [] →
      ∃ s1, s.loadSweep i = some s1 ∧ s1.plot.curveCount = 1 ∧ s1.plot.markerCount = 1 ∧
        ∀ j, d.getSweep j ≠ [] →
          ∃ s2, s1.loadSweep j = some s2 ∧ s2.plot.curveCount = 1 ∧
            s2.plot.markerCount = 1 := by
  obtain ⟨hc, hm⟩ := SweepInspector.reachable_atMostOne hr
  refine ⟨hc, hm, ?_⟩
  intro d hd i hne
  obtain ⟨st, -, hl⟩ := SweepInspector.loadSweep_of_nonempty i hd hne
  refine ⟨_, hl, (SweepInspector.loaded_counts s d i st).1,
    (SweepInspector.loaded_counts s d i st).2, ?_⟩
  intro j hnej
  obtain ⟨st2, -, hl2⟩ := SweepInspector.loadSweep_of_nonempty (s := s.loaded d i st) j rfl hnej
  exact ⟨_, hl2, (SweepInspector.loaded_counts _ d j st2).1,
    (SweepInspector.loaded_counts _ d j st2).2⟩

/-- Witness of C3: the inspector bound to the example data is reachable, by
`setpData` on a new inspector. -/
theorem one_curve_one_marker_witness :
    SweepInspector.Reachable exampleBound ∧
    exampleBound.plot.curveCount ≤ 1 ∧ exampleBound.plot.markerCount ≤ 1 ∧
    ∀ d, exampleBound.data = some d → ∀ i, d.getSweep i ≠ [] →
      ∃ s1, exampleBound.loadSweep i = some s1 ∧ s1.plot.curveCount = 1 ∧
        s1.plot.markerCount = 1 ∧
        ∀ j, d.getSweep j ≠ [] →
          ∃ s2, s1.loadSweep j = some s2 ∧ s2.plot.curveCount = 1 ∧
            s2.plot.markerCount = 1 :=
  have hr : SweepInspector.Reachable exampleBound :=
    SweepInspector.Reachable.bind exampleData (SweepInspector.Reachable.init exampleUi)
      SweepInspector.exampleBound_eq
  ⟨hr, one_curve_one_marker exampleBound hr⟩

/-- C4. For every inspector bound to a data source and every index whose sweep
is not empty, `loadSweep(index)` returns, and afterwards a curve is attached,
the samples of every attached curve are `getSweep(index)`, the x axis has the
scale from `limits(FREQ).first` to `limits(FREQ).second` with a fifth of their
difference as step, and the y axis has the scale from -135 to 20 with step
10. -/
theorem loadSweep_curve_and_scales (s : SweepInspector) (d : QHoundData) (i : ℤ)
    (hd : s.data = some d) (hne : d.getSweep i ≠ []) :
    ∃ s1, s.loadSweep i = some s1 ∧
      (∃ it ∈ s1.plot.items, ∃ t, it.kind = .curve t (d.getSweep i)) ∧
      (∀ it ∈ s1.plot.items, ∀ t smp, it.kind = .curve t smp → smp = d.getSweep i) ∧
      s1.plot.xBottom = some
        ⟨d.limitsFreq.1, d.limitsFreq.2, (d.limitsFreq.2 - d.limitsFreq.1) / 5⟩ ∧
      s1.plot.yLeft = some ⟨-135, 20, 10⟩ := by
  obtain ⟨st, -, hl⟩ := SweepInspector.loadSweep_of_nonempty i hd hne
  refine ⟨_, hl, ?_, ?_, rfl, rfl⟩
  · exact ⟨_, List.mem_cons_self _ _, _, rfl⟩
  · intro it hit t smp hk
    simp only [SweepInspector.loaded, List.mem_cons, List.mem_singleton, List.not_mem_nil,
      or_false] at hit
    rcases hit with rfl | rfl
    · simp only [Qwt.ItemKind.curve.injEq] at hk
      exact hk.2.symm
    · cases hk

/-- Witness of C4: `loadSweep(1)` on the inspector bound to the example
data. -/
theorem loadSweep_curve_and_scales_witness :
    ∃ s1, exampleBound.loadSweep 1 = some s1 ∧
      (∃ it ∈ s1.plot.items, ∃ t, it.kind = .curve t exampleSweep) ∧
      (∀ it ∈ s1.plot.items, ∀ t smp, it.kind = .curve t smp → smp = exampleSweep) ∧
      s1.plot.xBottom = some ⟨100, 300, (300 - 100) / 5⟩ ∧
      s1.plot.yLeft = some ⟨-135, 20, 10⟩ :=
  loadSweep_curve_and_scales exampleBound exampleData 1 rfl (by simp [exampleData, exampleSweep])

/-- C6. For every index, `loadSweep(index)` on an inspector without data source
(`data == NULL`) returns and leaves the whole state of the inspector as it
was. -/
theorem loadSweep_noop_without_data (s : SweepInspector) (i : ℤ) (hd : s.data = none) :
    s.loadSweep i = some s :=
  SweepInspector.loadSweep_unbound_eq i hd

/-- Witness of C6: `loadSweep(7)` on a new inspector. -/
theorem loadSweep_noop_without_data_witness :
    (SweepInspector.new exampleUi).loadSweep 7 = some (SweepInspector.new exampleUi) :=
  loadSweep_noop_without_data (SweepInspector.new exampleUi) 7 rfl

/-- C9. The constructor attaches the grid. For every inspector bound to a data
source and every index whose sweep is not empty, `loadSweep(index)` returns,
and afterwards the items attached to the plot are exactly the two objects
created by this call, the curve and the marker, to which `d_curve` and `minfo`
point; no grid is attached any more. -/
theorem loadSweep_items (s : SweepInspector) (d : QHoundData) (i : ℤ)
    (hd : s.data = some d) (hne : d.getSweep i ≠ []) :
    (∀ ui, (SweepInspector.new ui).plot.items = [{ id := 0, kind := .grid }]) ∧
    ∃ s1 st, s.loadSweep i = some s1 ∧ sweepStats (d.getSweep i) = some st ∧
      s1.plot.items =
        [{ id := s.nextId, kind := .curve (d.timestampFromIndex i) (d.getSweep i) },
         { id := s.nextId + 1,
           kind := .marker st (d.limitsFreq.1 + (d.limitsFreq.2 - d.limitsFreq.1) / 2) (-135) }] ∧
      s1.d_curve = some s.nextId ∧ s1.minfo = some (s.nextId + 1) ∧
      s1.nextId = s.nextId + 2 ∧
      ∀ it ∈ s1.plot.items, it.kind ≠ .grid := by
  refine ⟨fun ui => rfl, ?_⟩
  obtain ⟨st, hst, hl⟩ := SweepInspector.loadSweep_of_nonempty i hd hne
  refine ⟨_, st, hl, hst, rfl, rfl, rfl, rfl, ?_⟩
  intro it hit
  simp only [SweepInspector.loaded, List.mem_cons, List.mem_singleton, List.not_mem_nil,
    or_false] at hit
  rcases hit with rfl | rfl <;> simp

/-- Witness of C9: the first `loadSweep` of the inspector bound to the example
data, whose plot still has the grid attached before the call. -/
theorem loadSweep_items_witness :
    exampleBound.plot.items = [{ id := 0, kind := .grid }] ∧
    ((∀ ui, (SweepInspector.new ui).plot.items = [{ id := 0, kind := .grid }]) ∧
    ∃ s1 st, exampleBound.loadSweep 0 = some s1 ∧ sweepStats exampleSweep = some st ∧
      s1.plot.items =
        [{ id := 1, kind := .curve "12:00:00" exampleSweep },
         { id := 1 + 1, kind := .marker st (100 + (300 - 100) / 2) (-135) }] ∧
      s1.d_curve = some 1 ∧ s1.minfo = some (1 + 1) ∧
      s1.nextId = 1 + 2 ∧
      ∀ it ∈ s1.plot.items, it.kind ≠ .grid) :=
  ⟨rfl, loadSweep_items exampleBound exampleData 0 rfl (by simp [exampleData, exampleSweep])⟩

/-! ## Binding a data source -/

namespace Qt

/-- Raising or lowering the maximum of a slider whose minimum is at most 0 to
a value `m ≥ 0`: the minimum stays, the maximum is `m`, and either the value
stays and nothing is emitted, or the value is cut down to `m` and
`valueChanged(m)` is emitted. -/
theorem Slider.setMaximum_spec (w : Slider) (m : ℤ) (hmin : w.minimum ≤ 0) (hm : 0 ≤ m)
    (hwf : w.minimum ≤ w.value) :
    (w.setMaximum m).1.minimum = w.minimum ∧ (w.setMaximum m).1.maximum = m ∧
    ((w.setMaximum m).2 = none ∧ (w.setMaximum m).1.value = w.value ∨
     (w.setMaximum m).2 = some m ∧ (w.setMaximum m).1.value = m) := by
  have e1 : min w.minimum m = w.minimum := min_eq_left (le_trans hmin hm)
  have e2 : max w.minimum m = m := max_eq_right (le_trans hmin hm)
  unfold Slider.setMaximum Slider.setRange
  simp only [e1, e2]
  split_ifs with h
  · unfold Slider.setValue Slider.bound
    simp only
    split_ifs with h2
    · exact ⟨rfl, rfl, Or.inl ⟨rfl, rfl⟩⟩
    · have : ¬ w.value ≤ m := by
        intro hle
        apply h2
        rw [min_eq_right hle, max_eq_right hwf]
      have e3 : max w.minimum (min m w.value) = m := by
        rw [min_eq_left (le_of_lt (not_le.mp this)), max_eq_right (le_trans hmin hm)]
      refine ⟨rfl, rfl, Or.inr ⟨?_, ?_⟩⟩
      · simp only [e3]
      · simp only [e3]
  · exact ⟨rfl, rfl, Or.inl ⟨rfl, rfl⟩⟩

/-- Setting the value 0 on a slider whose range contains 0: the value becomes
0, and `valueChanged(0)` is emitted exactly when it was not 0 before. -/
theorem Slider.setValue_zero_spec (w : Slider) (hmin : w.minimum ≤ 0) (hmax : 0 ≤ w.maximum) :
    (w.setValue 0).1 = { w with value := 0 } ∧
    ((w.setValue 0).2 = none ∧ w.value = 0 ∨ (w.setValue 0).2 = some 0 ∧ w.value ≠ 0) := by
  have e : w.bound 0 = 0 := by
    unfold Slider.bound
    rw [min_eq_right hmax, max_eq_right hmin]
  unfold Slider.setValue
  simp only [e]
  split_ifs with h
  · refine ⟨?_, Or.inl ⟨rfl, h⟩⟩
    cases w
    simp only at h
    simp [h]
  · exact ⟨rfl, Or.inr ⟨rfl, h⟩⟩

end Qt

namespace SweepInspector

/-- Neither `loadSweep` nor therefore a `valueChanged` signal changes the
slider. -/
theorem valueChanged_timeIndex {s s1 : SweepInspector} {g : Option ℤ}
    (h : s.valueChanged g = some s1) : s1.timeIndex = s.timeIndex := by
  cases g with
  | none => simp only [valueChanged] at h; cases h; rfl
  | some i =>
    rcases loadSweep_cases h with rfl | ⟨d, st, -, -, rfl⟩
    · rfl
    · rfl

end SweepInspector

/-- Counterexample to C5: `setpData` with a data source without sweeps on a new
inspector returns with the slider maximum at `getNumSweeps() - 1 = -1`, and the
slider index is -1, not 0: the slider keeps its value within its range. The
same holds for every data source without sweeps with which `setpData`
returns. -/
theorem setpData_empty_source_index :
    (∃ s1, (SweepInspector.new exampleUi).setpData emptyData = some s1 ∧
      s1.timeIndex.maximum = emptyData.getNumSweeps - 1 ∧
      s1.timeIndex.value = -1 ∧ s1.timeIndex.value ≠ 0) ∧
    ∀ d : QHoundData, d.getNumSweeps = 0 →
      ∀ s1, (SweepInspector.new exampleUi).setpData d = some s1 →
        s1.timeIndex.maximum = -1 ∧ s1.timeIndex.value = -1 := by
  constructor
  · obtain ⟨st, hst⟩ : ∃ st, sweepStats (emptyData.getSweep (-1)) = some st :=
      ⟨_, sweepStats_cons _ _⟩
    have hl := SweepInspector.loadSweep_bound
      (s := { SweepInspector.new exampleUi with
              data := some emptyData, timeIndex := ⟨-1, -1, -1⟩ })
      (d := emptyData) (i := -1) rfl hst
    have h1 : (SweepInspector.new exampleUi).timeIndex.setMaximum (emptyData.getNumSweeps - 1)
        = (⟨-1, -1, -1⟩, some (-1)) := by decide
    have h2 : Qt.Slider.setValue ⟨-1, -1, -1⟩ 0 = (⟨-1, -1, -1⟩, none) := by decide
    refine ⟨({ SweepInspector.new exampleUi with
              data := some emptyData, timeIndex := ⟨-1, -1, -1⟩ }).loaded emptyData (-1) st,
      ?_, rfl, rfl, by show (-1 : ℤ) ≠ 0; decide⟩
    unfold SweepInspector.setpData
    simp only [h1, SweepInspector.valueChanged, hl, SweepInspector.loaded, h2]
  · intro d hd s1 h
    have h1 : (SweepInspector.new exampleUi).timeIndex.setMaximum (d.getNumSweeps - 1)
        = (⟨-1, -1, -1⟩, some (-1)) := by rw [hd]; decide
    have h2 : Qt.Slider.setValue ⟨-1, -1, -1⟩ 0 = (⟨-1, -1, -1⟩, none) := by decide
    unfold SweepInspector.setpData at h
    simp only [h1] at h
    split at h
    · cases h
    · rename_i s2 hs2
      have e2 := SweepInspector.valueChanged_timeIndex hs2
      simp only at e2
      rw [e2, h2] at h
      have e3 := SweepInspector.valueChanged_timeIndex h
      simp only at e3
      rw [e3]
      exact ⟨rfl, rfl⟩

namespace Qt

/-- After `setValue` the value is the requested one clamped into the range,
whether or not a signal was emitted. -/
theorem Slider.setValue_fst (w : Slider) (v : ℤ) :
    (w.setValue v).1 = { w with value := w.bound v } := by
  unfold Slider.setValue
  simp only
  split_ifs with h
  · cases w with
    | mk a b c => exact congrArg (Slider.mk a b) h
  · rfl

/-- After `setMaximum(m)` the maximum is `m` and the minimum is the smaller of
the old minimum and `m`. -/
theorem Slider.setMaximum_fst (w : Slider) (m : ℤ) :
    (w.setMaximum m).1.minimum = min w.minimum m ∧ (w.setMaximum m).1.maximum = m := by
  have e : max (min w.minimum m) m = m := max_eq_right (min_le_right _ _)
  unfold Slider.setMaximum Slider.setRange
  simp only
  split_ifs with h
  · rw [Slider.setValue_fst]
    exact ⟨rfl, e⟩
  · exact ⟨rfl, e⟩

end Qt

namespace SweepInspector

/-- A `valueChanged` signal leaves a bound inspector bound to the same
source. -/
theorem valueChanged_data {s s1 : SweepInspector} {d : QHoundData} {g : Option ℤ}
    (hd : s.data = some d) (h : s.valueChanged g = some s1) : s1.data = some d := by
  cases g with
  | none => simp only [valueChanged] at h; cases h; exact hd
  | some i =>
    rcases loadSweep_cases h with rfl | ⟨d1, st, hd1, -, rfl⟩
    · exact hd
    · rw [hd] at hd1
      cases hd1
      rfl

/-- On a bound inspector the slot run by a `valueChanged` signal returns
exactly when the sweep it loads is not empty. -/
theorem valueChanged_isSome (s : SweepInspector) (d : QHoundData) (g : Option ℤ)
    (hd : s.data = some d) :
    (s.valueChanged g).isSome = true ↔ ∀ i, g = some i → d.getSweep i ≠ [] := by
  cases g with
  | none => simp [valueChanged]
  | some i =>
    simp only [valueChanged, Option.some.injEq, forall_eq']
    constructor
    · intro h hne
      have hst : sweepStats (d.getSweep i) = none := by rw [hne]; rfl
      rw [loadSweep_bound_empty hd hst] at h
      cases h
    · intro hne
      obtain ⟨st, -, hl⟩ := loadSweep_of_nonempty i hd hne
      rw [hl]
      rfl

end SweepInspector

/-- C5, amended. For every data source and every prior inspector state:
whenever `setpData(source)` returns, the inspector is bound to the source, the
slider maximum equals `getNumSweeps() - 1`, and the slider index is 0 clamped
into the new range of the slider. So the index is 0 exactly when the source
has at least one sweep and the slider minimum was at most 0 (or the source has
exactly one sweep), and for a source without sweeps it is
`getNumSweeps() - 1`. The call returns exactly when each sweep that a
`valueChanged` signal of its two slider calls makes `loadSweep` load is not
empty. -/
theorem setpData_slider (s : SweepInspector) (d : QHoundData) :
    (∀ s1, s.setpData d = some s1 →
      s1.data = some d ∧
      s1.timeIndex.maximum = d.getNumSweeps - 1 ∧
      s1.timeIndex.value =
        max (min s.timeIndex.minimum (d.getNumSweeps - 1)) (min (d.getNumSweeps - 1) 0) ∧
      (s1.timeIndex.value = 0 ↔
        1 ≤ d.getNumSweeps ∧ (s.timeIndex.minimum ≤ 0 ∨ d.getNumSweeps = 1)) ∧
      (d.getNumSweeps ≤ 0 → s1.timeIndex.value = d.getNumSweeps - 1)) ∧
    ((s.setpData d).isSome = true ↔
      (∀ i, (s.timeIndex.setMaximum (d.getNumSweeps - 1)).2 = some i → d.getSweep i ≠ []) ∧
      (∀ i, ((s.timeIndex.setMaximum (d.getNumSweeps - 1)).1.setValue 0).2 = some i →
        d.getSweep i ≠ [])) := by
  obtain ⟨hmin1, hmax1⟩ := Qt.Slider.setMaximum_fst s.timeIndex (d.getNumSweeps - 1)
  constructor
  · intro s1 h
    unfold SweepInspector.setpData at h
    dsimp only at h
    split at h
    · cases h
    · rename_i s2 hs2
      have hd2 := SweepInspector.valueChanged_data (d := d) rfl hs2
      have ht2 := SweepInspector.valueChanged_timeIndex hs2
      dsimp only at ht2
      have hd1 := SweepInspector.valueChanged_data
        (s := { s2 with timeIndex := (s2.timeIndex.setValue 0).1 }) (d := d) hd2 h
      have ht1 := SweepInspector.valueChanged_timeIndex h
      dsimp only at ht1
      rw [Qt.Slider.setValue_fst, ht2] at ht1
      have hmax : s1.timeIndex.maximum = d.getNumSweeps - 1 := by rw [ht1]; exact hmax1
      have hval : s1.timeIndex.value =
          max (min s.timeIndex.minimum (d.getNumSweeps - 1)) (min (d.getNumSweeps - 1) 0) := by
        rw [ht1]
        show Qt.Slider.bound _ 0 = _
        unfold Qt.Slider.bound
        rw [hmin1, hmax1]
      refine ⟨hd1, hmax, hval, ?_, ?_⟩
      · rw [hval]
        constructor
        · intro h0
          rcases le_or_lt 1 d.getNumSweeps with hn | hn
          · refine ⟨hn, ?_⟩
            rw [min_eq_right (by omega : (0 : ℤ) ≤ d.getNumSweeps - 1)] at h0
            rcases le_or_lt s.timeIndex.minimum 0 with hm | hm
            · exact Or.inl hm
            · right
              rcases le_or_lt s.timeIndex.minimum (d.getNumSweeps - 1) with hc | hc
              · rw [min_eq_left hc, max_eq_left (le_of_lt hm)] at h0
                omega
              · rw [min_eq_right (le_of_lt hc)] at h0
                have := le_max_left (d.getNumSweeps - 1) 0
                have h1 : d.getNumSweeps - 1 ≤ 0 := by rw [h0] at this; exact this
                omega
          · exfalso
            rw [min_eq_left (by omega : d.getNumSweeps - 1 ≤ 0),
              max_eq_right (min_le_right _ _)] at h0
            omega
        · rintro ⟨hn, hm⟩
          rw [min_eq_right (by omega : (0 : ℤ) ≤ d.getNumSweeps - 1)]
          apply max_eq_right
          rcases hm with hm | hm
          · exact le_trans (min_le_left _ _) hm
          · exact le_trans (min_le_right _ _) (by omega)
      · intro hn
        rw [hval, min_eq_left (by omega : d.getNumSweeps - 1 ≤ 0),
          max_eq_right (min_le_right _ _)]
  · unfold SweepInspector.setpData
    dsimp only
    rw [← SweepInspector.valueChanged_isSome
      { s with data := some d,
               timeIndex := (s.timeIndex.setMaximum (d.getNumSweeps - 1)).1 }
      d (s.timeIndex.setMaximum (d.getNumSweeps - 1)).2 rfl]
    cases hs2 : SweepInspector.valueChanged
        { s with data := some d,
                 timeIndex := (s.timeIndex.setMaximum (d.getNumSweeps - 1)).1 }
        (s.timeIndex.setMaximum (d.getNumSweeps - 1)).2 with
    | none => simp
    | some s2 =>
      have hd2 := SweepInspector.valueChanged_data (d := d) rfl hs2
      have ht2 := SweepInspector.valueChanged_timeIndex hs2
      dsimp only at ht2 ⊢
      rw [ht2]
      rw [SweepInspector.valueChanged_isSome
        { s2 with timeIndex := ((s.timeIndex.setMaximum (d.getNumSweeps - 1)).1.setValue 0).1 }
        d _ hd2]
      simp

namespace SweepInspector

/-- When the slider is not at index 0, `setpData` ends with `loadSweep(0)` on
the new source: it returns the state in which `loadSweep(0)` leaves an
inspector bound to that source. -/
theorem setpData_moved_loads (s : SweepInspector) (d : QHoundData)
    (hn : 1 ≤ d.getNumSweeps) (hmin : s.timeIndex.minimum ≤ 0)
    (hwf : s.timeIndex.minimum ≤ s.timeIndex.value) (hv : s.timeIndex.value ≠ 0)
    (hne : ∀ i, 0 ≤ i → i < d.getNumSweeps → d.getSweep i ≠ []) :
    ∃ (s0 : SweepInspector) (st : SweepStats),
      sweepStats (d.getSweep 0) = some st ∧ s.setpData d = some (s0.loaded d 0 st) := by
  have hm : 0 ≤ d.getNumSweeps - 1 := by omega
  have hne1 : d.getSweep (d.getNumSweeps - 1) ≠ [] := hne _ (by omega) (by omega)
  have hne0 : d.getSweep 0 ≠ [] := hne 0 (le_refl 0) (by omega)
  obtain ⟨st0, hst0, -⟩ := sweepStats_facts _ hne0
  obtain ⟨st1, hst1, -⟩ := sweepStats_facts _ hne1
  unfold setpData
  dsimp only
  generalize d.getNumSweeps - 1 = m at hm hne1 hst1 ⊢
  obtain ⟨hmin1, hmax1, hsig1⟩ := Qt.Slider.setMaximum_spec s.timeIndex m hmin hm hwf
  generalize s.timeIndex.setMaximum m = r1 at hmin1 hmax1 hsig1 ⊢
  obtain ⟨w1, g1⟩ := r1
  simp only at hmin1 hmax1 hsig1 ⊢
  obtain ⟨hv3, hsig3⟩ := Qt.Slider.setValue_zero_spec w1 (by omega) (by omega)
  rcases hsig1 with ⟨rfl, hval⟩ | ⟨rfl, hval⟩
  · -- the value stays and is not 0: `setValue(0)` emits `valueChanged(0)`
    simp only [valueChanged]
    rcases hsig3 with ⟨-, h0⟩ | ⟨hg3, -⟩
    · rw [hval] at h0; exact absurd h0 hv
    · rw [hg3]
      exact ⟨_, st0, hst0, by apply loadSweep_bound _ hst0; rfl⟩
  · -- the value is cut down to the new maximum and `loadSweep` runs for it
    simp only [valueChanged]
    rw [loadSweep_bound (s := { s with data := some d, timeIndex := w1 }) rfl hst1]
    simp only [loaded]
    rcases hsig3 with ⟨hg3, h0⟩ | ⟨hg3, -⟩
    · -- the new maximum is 0: the sweep just loaded is the sweep 0
      rw [hg3]
      have hz : m = 0 := by rw [← hval]; exact h0
      subst hz
      exact ⟨{ s with data := some d, timeIndex := (w1.setValue 0).1 }, st1, hst1, rfl⟩
    · rw [hg3]
      exact ⟨_, st0, hst0, by apply loadSweep_bound _ hst0; rfl⟩

end SweepInspector

/-- Counterexample to C8, in an Empty and in a Bound state. On a new inspector
whose slider was moved to index 1, `setpData` with the example data makes the
slider value change from 1 to 0, so `valueChanged(0)` is emitted and
`loadSweep(0)` runs: before the call no curve is attached, the title is
`"RF Sweep"` and the axes have no scale; after it a curve and a marker are
attached, the title carries the timestamp and the axes have their scales. On
the inspector that shows sweep 1 of the example data, `setpData` with a second
source replaces the attached curve of the example sweep by a curve of the
sweep 0 of the new source, and changes title and x axis. -/
theorem setpData_redraws_moved_slider :
    (exampleMoved.timeIndex.value = 1 ∧ exampleMoved.data = none ∧
     ∃ s1, exampleMoved.setpData exampleData = some s1 ∧
      exampleMoved.plot.curveCount = 0 ∧ s1.plot.curveCount = 1 ∧
      exampleMoved.plot.markerCount = 0 ∧ s1.plot.markerCount = 1 ∧
      exampleMoved.plot.title = "RF Sweep" ∧ s1.plot.title = "RF Sweep @ 12:00:00" ∧
      exampleMoved.plot.xBottom = none ∧ s1.plot.xBottom = some ⟨100, 300, (300 - 100) / 5⟩ ∧
      exampleMoved.plot.yLeft = none ∧ s1.plot.yLeft = some ⟨-135, 20, 10⟩ ∧
      s1.plot ≠ exampleMoved.plot) ∧
    (SweepInspector.loadSweep { exampleBound with timeIndex := ⟨0, 2, 1⟩ } 1 = some exampleShown ∧
     exampleShown.timeIndex.value = 1 ∧ exampleShown.data = some exampleData ∧
     ∃ s1, exampleShown.setpData otherData = some s1 ∧
      exampleShown.plot.items =
        [{ id := 1, kind := .curve "12:00:00" exampleSweep },
         { id := 2, kind := .marker exampleStats (100 + (300 - 100) / 2) (-135) }] ∧
      (∃ st, s1.plot.items =
        [{ id := 3, kind := .curve "13:00:00" flatSweep },
         { id := 4, kind := .marker st (50 + (60 - 50) / 2) (-135) }]) ∧
      exampleShown.plot.title = "RF Sweep @ 12:00:00" ∧
      s1.plot.title = "RF Sweep @ 13:00:00" ∧
      exampleShown.plot.xBottom = some ⟨100, 300, (300 - 100) / 5⟩ ∧
      s1.plot.xBottom = some ⟨50, 60, (60 - 50) / 5⟩ ∧
      s1.plot ≠ exampleShown.plot) := by
  constructor
  · obtain ⟨st, hst⟩ : ∃ st, sweepStats (exampleData.getSweep 0) = some st :=
      ⟨_, sweepStats_cons _ _⟩
    have hl := SweepInspector.loadSweep_bound
      (s := { exampleMoved with data := some exampleData, timeIndex := ⟨0, 2, 0⟩ })
      (d := exampleData) (i := 0) rfl hst
    have h1 : exampleMoved.timeIndex.setMaximum (exampleData.getNumSweeps - 1)
        = (⟨0, 2, 1⟩, none) := by decide
    have h2 : Qt.Slider.setValue ⟨0, 2, 1⟩ 0 = (⟨0, 2, 0⟩, some 0) := by decide
    refine ⟨rfl, rfl,
      ({ exampleMoved with data := some exampleData, timeIndex := ⟨0, 2, 0⟩ }).loaded
        exampleData 0 st,
      ?_, by decide, (SweepInspector.loaded_counts _ _ _ _).1, by decide,
      (SweepInspector.loaded_counts _ _ _ _).2, rfl, ?_, rfl, rfl, rfl, rfl, ?_⟩
    · unfold SweepInspector.setpData
      simp only [h1, SweepInspector.valueChanged, h2, hl]
    · show "RF Sweep @ " ++ "12:00:00" = "RF Sweep @ 12:00:00"
      decide
    · intro h
      have := congrArg Qwt.Plot.yLeft h
      simp [SweepInspector.loaded, exampleMoved, SweepInspector.new, Qwt.Plot.attach] at this
  · obtain ⟨st, hst⟩ : ∃ st, sweepStats (otherData.getSweep 0) = some st :=
      ⟨_, sweepStats_cons _ _⟩
    have hl := SweepInspector.loadSweep_bound
      (s := { exampleShown with data := some otherData, timeIndex := ⟨0, 2, 0⟩ })
      (d := otherData) (i := 0) rfl hst
    have h1 : exampleShown.timeIndex.setMaximum (otherData.getNumSweeps - 1)
        = (⟨0, 2, 1⟩, none) := by decide
    have h2 : Qt.Slider.setValue ⟨0, 2, 1⟩ 0 = (⟨0, 2, 0⟩, some 0) := by decide
    refine ⟨SweepInspector.loadSweep_bound rfl sweepStats_exampleSweep, rfl, rfl,
      ({ exampleShown with data := some otherData, timeIndex := ⟨0, 2, 0⟩ }).loaded
        otherData 0 st,
      ?_, rfl, ⟨st, rfl⟩, ?_, ?_, rfl, rfl, ?_⟩
    · unfold SweepInspector.setpData
      simp only [h1, SweepInspector.valueChanged, h2, hl]
    · show "RF Sweep @ " ++ "12:00:00" = "RF Sweep @ 12:00:00"
      decide
    · show "RF Sweep @ " ++ "13:00:00" = "RF Sweep @ 13:00:00"
      decide
    · intro h
      have := congrArg Qwt.Plot.title h
      revert this
      show ¬ ("RF Sweep @ " ++ "13:00:00" = "RF Sweep @ " ++ "12:00:00")
      decide

/-- With the slider at index 0, `setpData` changes only `data` and the slider
maximum. -/
theorem SweepInspector.setpData_at_zero (s : SweepInspector) (d : QHoundData)
    (hn : 1 ≤ d.getNumSweeps) (hv : s.timeIndex.value = 0) (hmin : s.timeIndex.minimum ≤ 0) :
    s.setpData d = some { s with
      data := some d
      timeIndex := ⟨s.timeIndex.minimum, d.getNumSweeps - 1, 0⟩ } := by
  have e1 : min s.timeIndex.minimum (d.getNumSweeps - 1) = s.timeIndex.minimum :=
    min_eq_left (by omega)
  have e2 : max s.timeIndex.minimum (d.getNumSweeps - 1) = d.getNumSweeps - 1 :=
    max_eq_right (by omega)
  have e3 : min (d.getNumSweeps - 1) 0 = 0 := min_eq_right (by omega)
  have e4 : max s.timeIndex.minimum 0 = 0 := max_eq_right hmin
  have h1 : s.timeIndex.setMaximum (d.getNumSweeps - 1)
      = (⟨s.timeIndex.minimum, d.getNumSweeps - 1, 0⟩, none) := by
    unfold Qt.Slider.setMaximum Qt.Slider.setRange Qt.Slider.setValue Qt.Slider.bound
    simp only [e1, e2, hv, e3, e4]
    split_ifs <;> rfl
  have h2 : Qt.Slider.setValue ⟨s.timeIndex.minimum, d.getNumSweeps - 1, 0⟩ 0
      = (⟨s.timeIndex.minimum, d.getNumSweeps - 1, 0⟩, none) := by
    unfold Qt.Slider.setValue Qt.Slider.bound
    simp only [e3, e4]
    rfl
  unfold SweepInspector.setpData
  simp only [h1, SweepInspector.valueChanged, h2]

/-- C8, amended. For every inspector state, Empty or Bound, whose slider has a
minimum of at most 0, and every data source with at least one sweep:
when the slider is at index 0, `setpData(source)` returns without any
`valueChanged` signal and hence without running `loadSweep`, so that only
`data` and the slider maximum change, and the plot with its curve, marker, axis
scales and title, the timestamp text, the zoom base and the pointers `d_curve`
and `minfo` are the same after the call as before it; when the slider is at
another index (not below its minimum, and the sweeps of the source are not
empty), the slider value changes during the call, `valueChanged` is emitted,
and `setpData` returns in the state in which `loadSweep(0)` leaves an inspector
bound to the new source: it has redrawn. -/
theorem setpData_no_redraw (s : SweepInspector) (d : QHoundData)
    (hn : 1 ≤ d.getNumSweeps) (hmin : s.timeIndex.minimum ≤ 0) :
    (s.timeIndex.value = 0 →
      s.setpData d = some { s with
        data := some d
        timeIndex := ⟨s.timeIndex.minimum, d.getNumSweeps - 1, 0⟩ } ∧
      ∃ s1, s.setpData d = some s1 ∧ s1.plot = s.plot ∧ s1.timestamp = s.timestamp ∧
        s1.zoomBase = s.zoomBase ∧ s1.d_curve = s.d_curve ∧ s1.minfo = s.minfo ∧
        s1.nextId = s.nextId) ∧
    (s.timeIndex.value ≠ 0 → s.timeIndex.minimum ≤ s.timeIndex.value →
      (∀ i, 0 ≤ i → i < d.getNumSweeps → d.getSweep i ≠ []) →
      ∃ (s0 : SweepInspector) (st : SweepStats),
        sweepStats (d.getSweep 0) = some st ∧ s.setpData d = some (s0.loaded d 0 st)) := by
  constructor
  · intro hv
    have key := SweepInspector.setpData_at_zero s d hn hv hmin
    exact ⟨key, _, key, rfl, rfl, rfl, rfl, rfl, rfl⟩
  · intro hv hwf hne
    exact SweepInspector.setpData_moved_loads s d hn hmin hwf hv hne

/-- Witness of C8 as amended: `setpData` with the example data on a new
inspector and again on the inspector already bound to it, both with the slider
at 0, and on the new inspector whose slider was moved to index 1. -/
theorem setpData_no_redraw_witness :
    (SweepInspector.new exampleUi).setpData exampleData = some exampleBound ∧
    (∃ s1, exampleBound.setpData exampleData = some s1 ∧ s1.plot = exampleBound.plot ∧
      s1.timestamp = exampleBound.timestamp ∧ s1.zoomBase = exampleBound.zoomBase ∧
      s1.d_curve = exampleBound.d_curve ∧ s1.minfo = exampleBound.minfo ∧
      s1.nextId = exampleBound.nextId) ∧
    (∃ (s0 : SweepInspector) (st : SweepStats),
      sweepStats (exampleData.getSweep 0) = some st ∧
      exampleMoved.setpData exampleData = some (s0.loaded exampleData 0 st)) :=
  ⟨((setpData_no_redraw (SweepInspector.new exampleUi) exampleData (by decide)
      (by decide)).1 rfl).1,
   ((setpData_no_redraw exampleBound exampleData (by decide) (by decide)).1 rfl).2,
   (setpData_no_redraw exampleMoved exampleData (by decide) (by decide)).2 (by decide)
     (by decide) (by intro i _ _; simp [exampleData, exampleSweep])⟩
